import Mathlib

/-!
Verification development for the layered configuration engine of
decky-lossless-scaling-vk (py_modules/lsfg_vk).

Python strings are modelled as lists of characters (Str); the file and
script texts handled by the codecs are parameterised explicitly, so the
file-system reads of the services appear as Option Str arguments (none =
file absent).  Python float values are modelled by their canonical decimal
literal (PyFloat wraps the literal text), since the code only ever prints
a float with str() and re-reads it with float(); scientific notation is
outside the modelled grammar.  Python exceptions are modelled with Except.
-/

set_option maxRecDepth 40000

namespace LsfgVk

/-- Python strings as lists of characters. -/
abbrev Str := List Char

/-- Shorthand embedding of a Lean string literal into the Str model. -/
def s2l (s : String) : Str := s.data

instance {ε α : Type} [DecidableEq ε] [DecidableEq α] : DecidableEq (Except ε α) := fun a b =>
  match a, b with
  | .ok x, .ok y =>
    if h : x = y then .isTrue (by rw [h]) else .isFalse (by intro hc; cases hc; exact h rfl)
  | .error x, .error y =>
    if h : x = y then .isTrue (by rw [h]) else .isFalse (by intro hc; cases hc; exact h rfl)
  | .ok _, .error _ => .isFalse (by intro hc; cases hc)
  | .error _, .ok _ => .isFalse (by intro hc; cases hc)

/-- The whitespace characters stripped by Python str.strip(). -/
def isWS (c : Char) : Bool :=
  c = ' ' || c = '\t' || c = '\n' || c = '\r' || c = '\x0b' || c = '\x0c'

/-- Left part of Python str.strip(). -/
def stripL (s : Str) : Str := s.dropWhile isWS

/-- Right part of Python str.strip(). -/
def stripR (s : Str) : Str := (s.reverse.dropWhile isWS).reverse

/-- Python str.strip() with no arguments. -/
def strip (s : Str) : Str := stripR (stripL s)

/-- Python str.startswith. -/
def startsWith : Str → Str → Bool
  | [], _ => true
  | _ :: _, [] => false
  | p :: ps, c :: cs => p = c && startsWith ps cs

/-- Python str.endswith for a single character. -/
def endsWithChar (c : Char) (s : Str) : Bool := s.getLast? = some c

/-- Python "sep in s" membership test for a single character. -/
def containsChar (sep : Char) (s : Str) : Bool := s.any (fun c => c = sep)

/-- Python s.split(sep, 1) when sep occurs: the text before and after the
first occurrence of sep.  none when sep does not occur. -/
def splitOnce (sep : Char) : Str → Option (Str × Str)
  | [] => none
  | c :: cs =>
    if c = sep then some ([], cs)
    else
      match splitOnce sep cs with
      | none => none
      | some (a, b) => some (c :: a, b)

/-- Tail-recursive worker for splitOnChar (tail recursion keeps the
evaluation depth of the kernel bounded on long file contents): cur is the
current chunk reversed, out the finished chunks reversed. -/
def splitOnCharAux (sep : Char) : Str → Str → List Str → List Str
  | [], cur, out => (cur.reverse :: out).reverse
  | c :: cs, cur, out =>
    if c = sep then splitOnCharAux sep cs [] (cur.reverse :: out)
    else splitOnCharAux sep cs (c :: cur) out

/-- Python s.split(sep) for a single-character separator. -/
def splitOnChar (sep : Char) (s : Str) : List Str := splitOnCharAux sep s [] []

/-- Python sep.join for a single-character separator. -/
def joinSep (sep : Char) : List Str → Str
  | [] => []
  | [l] => l
  | l :: ls => l ++ sep :: joinSep sep ls

/-- ASCII lower-casing of one character (the values compared by the code
are ASCII). -/
def lowerChar (c : Char) : Char :=
  if 'A' ≤ c ∧ c ≤ 'Z' then Char.ofNat (c.toNat + 32) else c

/-- Python str.lower() on the ASCII range. -/
def lower (s : Str) : Str := s.map lowerChar

/-- Quote removal performed by both parsers on values: strip one layer of
surrounding double or single quotes. -/
def stripQuotes (v : Str) : Str :=
  if startsWith (s2l "\"") v && endsWithChar '"' v then (v.drop 1).dropLast
  else if startsWith (s2l "'") v && endsWithChar '\'' v then (v.drop 1).dropLast
  else v

/-- One decimal digit as a character. -/
def digitChar : Nat → Char
  | 0 => '0' | 1 => '1' | 2 => '2' | 3 => '3' | 4 => '4'
  | 5 => '5' | 6 => '6' | 7 => '7' | 8 => '8' | _ => '9'

/-- Numeric value of a decimal digit character. -/
def digitVal (c : Char) : Nat := c.toNat - 48

/-- Fuel-driven decimal printing of a natural number (most significant
digit first); empty for 0, which natToChars special-cases. -/
def natToCharsAux : Nat → Nat → Str
  | 0, _ => []
  | fuel + 1, n => if n = 0 then [] else natToCharsAux fuel (n / 10) ++ [digitChar (n % 10)]

/-- Decimal printing of a natural number, as Python str(). -/
def natToChars (n : Nat) : Str := if n = 0 then ['0'] else natToCharsAux n n

/-- Python str() of an int. -/
def intToChars (i : Int) : Str :=
  if i < 0 then '-' :: natToChars i.natAbs else natToChars i.toNat

/-- Parse a nonempty all-digit string as a natural number. -/
def parseNat (s : Str) : Option Nat :=
  if s = [] then none
  else if s.all Char.isDigit then some (s.foldl (fun a c => 10 * a + digitVal c) 0)
  else none

/-- Python int(str): strips surrounding whitespace, accepts an optional
sign followed by decimal digits, raises ValueError otherwise (modelled as
Except.error). -/
def pyInt (s : Str) : Except Unit Int :=
  let t := strip s
  if t.head? = some '-' then
    match parseNat t.tail with
    | some n => .ok (-(n : Int))
    | none => .error ()
  else if t.head? = some '+' then
    match parseNat t.tail with
    | some n => .ok (n : Int)
    | none => .error ()
  else
    match parseNat t with
    | some n => .ok (n : Int)
    | none => .error ()

/-- A Python float value, modelled by its canonical decimal literal (the
text produced by str() on it).  The configuration code never computes with
floats: it only prints them and parses them back. -/
structure PyFloat where
  lit : Str
  deriving DecidableEq, Repr

/-- Characters allowed in the modelled float literals. -/
def floatChar (c : Char) : Bool := c.isDigit || c = '.' || c = '-'

/-- The modelled grammar of float literals: nonempty, built from digits,
a dot and a minus sign, starting with a digit or a minus sign and ending
with a digit.  This covers the decimal literals Python str() produces for
the configuration floats; scientific notation is outside the model. -/
def floatLit (s : Str) : Bool :=
  !s.isEmpty && s.all floatChar &&
    (match s.head? with | some c => c.isDigit || c = '-' | none => false) &&
    (match s.getLast? with | some c => c.isDigit | none => false)

/-- Python float(str) on the modelled grammar: strips whitespace, keeps
the literal on success, raises ValueError (Except.error) otherwise. -/
def pyFloat (s : Str) : Except Unit PyFloat :=
  let t := strip s
  if floatLit t then .ok ⟨t⟩ else .error ()

/-- Python str(bool).lower(), the form written into the files. -/
def boolStr (b : Bool) : Str := if b then s2l "true" else s2l "false"

/-- The truthy words recognised by the single-profile parser:
value.lower() in ('true', '1', 'yes', 'on'). -/
def boolTruthWords (v : Str) : Bool :=
  v = s2l "true" || v = s2l "1" || v = s2l "yes" || v = s2l "on"

/-- ConfigurationData from config_schema.py: one field per entry of
FULL_CONFIG_SCHEMA, in schema order. -/
structure ConfigurationData where
  dll : Str
  multiplier : Int
  flow_scale : PyFloat
  performance_mode : Bool
  hdr_mode : Bool
  experimental_present_mode : Str
  dxvk_frame_rate : Int
  enable_wow64 : Bool
  disable_steamdeck_mode : Bool
  per_game_profiles : Bool
  deriving DecidableEq, Repr

/-- ConfigurationManager.get_defaults: the schema defaults. -/
def get_defaults : ConfigurationData where
  dll := []
  multiplier := 1
  flow_scale := ⟨s2l "0.8"⟩
  performance_mode := true
  hdr_mode := false
  experimental_present_mode := s2l "fifo"
  dxvk_frame_rate := 0
  enable_wow64 := false
  disable_steamdeck_mode := false
  per_game_profiles := false

/-- The documented fallback DLL path used when detection yields nothing. -/
def default_dll_fallback : Str :=
  s2l "/home/deck/.local/share/Steam/steamapps/common/Lossless Scaling/Lossless.dll"

/-- Result shape of the DLL-detection collaborator
(check_lossless_scaling_dll), per the collaborator interface. -/
structure DllResult where
  detected : Bool
  path : Str
  deriving DecidableEq, Repr

/-- ConfigurationManager.get_defaults_with_dll_detection.  The optional
detection service is summarised by its call result (Except models a
raised exception inside the service). -/
def get_defaults_with_dll_detection (svc : Option (Except Unit DllResult)) : ConfigurationData :=
  let defaults := get_defaults
  let defaults :=
    match svc with
    | some (.ok r) => if r.detected && r.path ≠ [] then { defaults with dll := r.path } else defaults
    | some (.error _) => defaults
    | none => defaults
  if defaults.dll = [] then { defaults with dll := default_dll_fallback } else defaults

/-- A dynamically typed Python value of the kinds the configuration code
passes around (bool, int, float, str). -/
inductive PyValue where
  | b (x : Bool)
  | i (x : Int)
  | f (x : PyFloat)
  | s (x : Str)
  deriving DecidableEq, Repr

/-- Python bool(value): truthiness of the modelled values.  A float is
falsy exactly when its literal has no nonzero digit. -/
def pyTruthy : PyValue → Bool
  | .b x => x
  | .i n => decide (n ≠ 0)
  | .f fl => !(fl.lit.all fun c => !(c.isDigit && c ≠ '0'))
  | .s st => decide (st ≠ [])

/-- Python int(value) on the modelled values: bools become 0/1, ints stay,
floats truncate toward zero (drop the fractional digits of the literal),
strings parse as integer literals or raise. -/
def pyToInt : PyValue → Except Unit Int
  | .b x => .ok (if x then 1 else 0)
  | .i n => .ok n
  | .f fl =>
    match fl.lit with
    | '-' :: body =>
      (match parseNat (body.takeWhile Char.isDigit) with
       | some n => .ok (-(n : Int))
       | none => .error ())
    | body =>
      (match parseNat (body.takeWhile Char.isDigit) with
       | some n => .ok (n : Int)
       | none => .error ())
  | .s st => pyInt st

/-- Python float(value) on the modelled values. -/
def pyToFloat : PyValue → Except Unit PyFloat
  | .b x => .ok ⟨if x then s2l "1.0" else s2l "0.0"⟩
  | .i n => .ok ⟨intToChars n ++ s2l ".0"⟩
  | .f fl => .ok fl
  | .s st => pyFloat st

/-- Python str(value) on the modelled values. -/
def pyToStr : PyValue → Str
  | .b x => if x then s2l "True" else s2l "False"
  | .i n => intToChars n
  | .f fl => fl.lit
  | .s st => st

/-- A raw mapping as handed to validate_config (a Python dict modelled as
an association list in insertion order). -/
abbrev RawConfig := List (Str × PyValue)

/-- config.get(field_name, field_def.default). -/
def rawGet (m : RawConfig) (k : Str) (d : PyValue) : PyValue := ((m.lookup k).getD d)

/-- ConfigurationManager.validate_config: walks FULL_CONFIG_SCHEMA in
order, coercing the present value (or the schema default) of each field to
its declared type.  A failing int()/float() coercion raises, aborting the
whole call, exactly as in the source (there is no exception handler in
validate_config). -/
def validate_config (config : RawConfig) : Except Unit ConfigurationData :=
  let dll := pyToStr (rawGet config (s2l "dll") (.s []))
  match pyToInt (rawGet config (s2l "multiplier") (.i 1)) with
  | .error e => .error e
  | .ok multiplier =>
    match pyToFloat (rawGet config (s2l "flow_scale") (.f ⟨s2l "0.8"⟩)) with
    | .error e => .error e
    | .ok flow_scale =>
      let performance_mode := pyTruthy (rawGet config (s2l "performance_mode") (.b true))
      let hdr_mode := pyTruthy (rawGet config (s2l "hdr_mode") (.b false))
      let experimental_present_mode :=
        pyToStr (rawGet config (s2l "experimental_present_mode") (.s (s2l "fifo")))
      match pyToInt (rawGet config (s2l "dxvk_frame_rate") (.i 0)) with
      | .error e => .error e
      | .ok dxvk_frame_rate =>
        let enable_wow64 := pyTruthy (rawGet config (s2l "enable_wow64") (.b false))
        let disable_steamdeck_mode := pyTruthy (rawGet config (s2l "disable_steamdeck_mode") (.b false))
        let per_game_profiles := pyTruthy (rawGet config (s2l "per_game_profiles") (.b false))
        .ok { dll, multiplier, flow_scale, performance_mode, hdr_mode,
              experimental_present_mode, dxvk_frame_rate, enable_wow64,
              disable_steamdeck_mode, per_game_profiles }

/-- dict(config) for a typed ConfigurationData: the association list of
its fields in schema order, with the dynamic type each field carries. -/
def configToRaw (c : ConfigurationData) : RawConfig :=
  [(s2l "dll", .s c.dll),
   (s2l "multiplier", .i c.multiplier),
   (s2l "flow_scale", .f c.flow_scale),
   (s2l "performance_mode", .b c.performance_mode),
   (s2l "hdr_mode", .b c.hdr_mode),
   (s2l "experimental_present_mode", .s c.experimental_present_mode),
   (s2l "dxvk_frame_rate", .i c.dxvk_frame_rate),
   (s2l "enable_wow64", .b c.enable_wow64),
   (s2l "disable_steamdeck_mode", .b c.disable_steamdeck_mode),
   (s2l "per_game_profiles", .b c.per_game_profiles)]

/-- ConfigurationManager.create_config_from_args. -/
def create_config_from_args (dll : Str) (multiplier : Int) (flow_scale : PyFloat)
    (performance_mode hdr_mode : Bool) (experimental_present_mode : Str)
    (dxvk_frame_rate : Int) (enable_wow64 disable_steamdeck_mode per_game_profiles : Bool) :
    ConfigurationData :=
  { dll, multiplier, flow_scale, performance_mode, hdr_mode,
    experimental_present_mode, dxvk_frame_rate, enable_wow64,
    disable_steamdeck_mode, per_game_profiles }

/-- The CONFIG_SCHEMA field lines written for one game entry: for every
persisted field except dll, in schema order, a description comment, then
the value line (booleans lower-cased, strings quoted and only emitted when
nonempty, numbers always emitted), then a blank line.  This loop body is
identical in generate_toml_content and generate_per_game_toml_content. -/
def profileFieldLines (gc : ConfigurationData) : List Str :=
  [s2l "# change the fps multiplier",
   s2l "multiplier = " ++ intToChars gc.multiplier, []]
  ++ [s2l "# change the flow scale",
      s2l "flow_scale = " ++ gc.flow_scale.lit, []]
  ++ [s2l "# toggle performance mode",
      s2l "performance_mode = " ++ boolStr gc.performance_mode, []]
  ++ [s2l "# enable hdr mode",
      s2l "hdr_mode = " ++ boolStr gc.hdr_mode, []]
  ++ [s2l "# experimental: override vulkan present mode (fifo/mailbox/immediate)"]
  ++ (if gc.experimental_present_mode ≠ [] then
        [s2l "experimental_present_mode = \"" ++ (gc.experimental_present_mode ++ s2l "\"")]
      else [])
  ++ [[]]

/-- ConfigurationManager.generate_toml_content, as its list of lines. -/
def generate_toml_lines (config : ConfigurationData) : List Str :=
  [s2l "version = 1", []]
  ++ (if config.dll ≠ [] then
        [s2l "[global]",
         s2l "# Global settings",
         s2l "# specify where Lossless.dll is stored",
         s2l "dll = \"" ++ (config.dll ++ s2l "\""),
         s2l "# Enable per-game profiles",
         s2l "# per_game_profiles = " ++ boolStr config.per_game_profiles,
         []]
      else [])
  ++ [s2l "[[game]]",
      s2l "# Plugin-managed game entry (uses LSFG_PROCESS=decky-lsfg-vk)",
      s2l "exe = \"decky-lsfg-vk\"",
      []]
  ++ profileFieldLines config

/-- ConfigurationManager.generate_toml_content. -/
def generate_toml_content (config : ConfigurationData) : Str :=
  joinSep '\n' (generate_toml_lines config)

/-- Parser state of parse_toml_content: the two section flags, the exe of
the current game section, and the configuration being filled in. -/
structure PSt where
  in_global : Bool
  in_game : Bool
  current_game_exe : Option Str
  config : ConfigurationData
  deriving DecidableEq, Repr

/-- The key = value handling of parse_toml_content, on the stripped key
and the unquoted stripped value: the dll key inside the global section,
and inside a game section the exe key plus, only when the tracked exe is
the plugin-managed entry, the CONFIG_SCHEMA fields converted per their
declared type.  The Except layer carries the Python exceptions that could
arise: the int()/float() conversions are the only raisers and both are
wrapped in the inner try of the source, which keeps the previous value by
leaving the state unchanged. -/
def kvDispatch (st : PSt) (key value : Str) : Except Unit PSt :=
  if st.in_global then
    if key = s2l "dll" then .ok { st with config := { st.config with dll := value } }
    else .ok st
  else if st.in_game then
    if key = s2l "exe" then .ok { st with current_game_exe := some value }
    else if st.current_game_exe = some (s2l "decky-lsfg-vk") then
      if key = s2l "dll" then .ok { st with config := { st.config with dll := value } }
      else if key = s2l "multiplier" then
        match pyInt value with
        | .ok n => .ok { st with config := { st.config with multiplier := n } }
        | .error _ => .ok st
      else if key = s2l "flow_scale" then
        match pyFloat value with
        | .ok fl => .ok { st with config := { st.config with flow_scale := fl } }
        | .error _ => .ok st
      else if key = s2l "performance_mode" then
        .ok { st with config := { st.config with performance_mode := boolTruthWords (lower value) } }
      else if key = s2l "hdr_mode" then
        .ok { st with config := { st.config with hdr_mode := boolTruthWords (lower value) } }
      else if key = s2l "experimental_present_mode" then
        .ok { st with config := { st.config with experimental_present_mode := value } }
      else .ok st
    else .ok st
  else .ok st

/-- One iteration of the parse_toml_content loop, on an already stripped
line. -/
def stepCore (st : PSt) (line : Str) : Except Unit PSt :=
  if startsWith (s2l "# per_game_profiles =") line || startsWith (s2l "per_game_profiles =") line then
    let value_part :=
      if startsWith (s2l "# per_game_profiles =") line then
        strip (line.drop (s2l "# per_game_profiles =").length)
      else
        strip (line.drop (s2l "per_game_profiles =").length)
    .ok { st with config := { st.config with per_game_profiles := boolTruthWords (lower value_part) } }
  else if decide (line = []) || startsWith (s2l "#") line then
    .ok st
  else if startsWith (s2l "[") line && endsWithChar ']' line then
    if line = s2l "[global]" then
      .ok { st with in_global := true, in_game := false }
    else if line = s2l "[[game]]" then
      .ok { st with in_global := false, in_game := true, current_game_exe := none }
    else
      .ok { st with in_global := false, in_game := false }
  else if containsChar '=' line then
    match splitOnce '=' line with
    | none => .ok st
    | some (k, v) => kvDispatch st (strip k) (stripQuotes (strip v))
  else .ok st

/-- One iteration of the parse_toml_content loop on a raw line (the body
strips first). -/
def stepE (st : PSt) (rawLine : Str) : Except Unit PSt := stepCore st (strip rawLine)

/-- Initial state of the parse_toml_content loop. -/
def pInit : PSt where
  in_global := false
  in_game := false
  current_game_exe := none
  config := get_defaults

/-- The body of parse_toml_content inside its outer try: the line loop in
the exception monad. -/
def parse_toml_body (content : Str) : Except Unit ConfigurationData :=
  ((splitOnChar '\n' content).foldlM stepE pInit).map (fun st => st.config)

/-- ConfigurationManager.parse_toml_content: the outer except returns the
schema defaults if anything in the body raised. -/
def parse_toml_content (content : Str) : ConfigurationData :=
  match parse_toml_body content with
  | .ok c => c
  | .error _ => get_defaults

/-- The script-only field values recovered from the launch script.  By
construction parse_script_content only ever writes the three keys
dxvk_frame_rate, enable_wow64 and disable_steamdeck_mode into its result
dict, so the mapping is faithfully a record of three optional values. -/
structure ScriptValues where
  dxvk_frame_rate : Option Int
  enable_wow64 : Option Bool
  disable_steamdeck_mode : Option Bool
  deriving DecidableEq, Repr

/-- One iteration of the parse_script_content loop. -/
def scriptStep (acc : ScriptValues) (rawLine : Str) : ScriptValues :=
  let line := strip rawLine
  if decide (line = []) || startsWith (s2l "#") line || !startsWith (s2l "export ") line then
    acc
  else if containsChar '=' line then
    let export_line := line.drop (s2l "export ").length
    match splitOnce '=' export_line with
    | none => acc
    | some (k, v) =>
      let key := strip k
      let value := strip v
      if key = s2l "DXVK_FRAME_RATE" then
        match pyInt value with
        | .ok n => { acc with dxvk_frame_rate := some n }
        | .error _ => acc
      else if key = s2l "PROTON_USE_WOW64" then
        { acc with enable_wow64 := some (value = s2l "1") }
      else if key = s2l "SteamDeck" then
        { acc with disable_steamdeck_mode := some (value = s2l "0") }
      else acc
  else acc

/-- ConfigurationManager.parse_script_content.  The only possible raiser
(int on DXVK_FRAME_RATE) is guarded by its own try in the source, so the
outer except that would return the partial dict is unreachable and the
function is total. -/
def parse_script_content (script_content : Str) : ScriptValues :=
  (splitOnChar '\n' script_content).foldl scriptStep ⟨none, none, none⟩

/-- ConfigurationManager.merge_config_with_script: overlay exactly the
script-only fields present in the script values onto the file data. -/
def merge_config_with_script (toml_config : ConfigurationData) (script_values : ScriptValues) :
    ConfigurationData :=
  { toml_config with
    dxvk_frame_rate :=
      match script_values.dxvk_frame_rate with
      | some v => v
      | none => toml_config.dxvk_frame_rate
    enable_wow64 :=
      match script_values.enable_wow64 with
      | some v => v
      | none => toml_config.enable_wow64
    disable_steamdeck_mode :=
      match script_values.disable_steamdeck_mode with
      | some v => v
      | none => toml_config.disable_steamdeck_mode }

/-- The response shape of the configuration service operations. -/
structure ConfigurationResponse where
  success : Bool
  config : Option ConfigurationData
  message : Option Str
  error : Option Str
  deriving DecidableEq, Repr

/-- ConfigurationService.get_config.  The two file reads are passed in as
optional contents (none = the file does not exist) and the DLL-detection
collaborator consulted when the config file is absent is summarised by its
call result. -/
def get_config (configContent scriptContent : Option Str) (dllRes : Except Unit DllResult) :
    ConfigurationResponse :=
  let toml_config :=
    match configContent with
    | none => get_defaults_with_dll_detection (some dllRes)
    | some ct => parse_toml_content ct
  let script_values :=
    match scriptContent with
    | none => ({ dxvk_frame_rate := none, enable_wow64 := none, disable_steamdeck_mode := none } : ScriptValues)
    | some sc => parse_script_content sc
  let config := merge_config_with_script toml_config script_values
  { success := true, config := some config, message := none, error := none }

/-- Python dict insertion order semantics on an association list: update
in place if the key exists, append otherwise. -/
def dictInsert {α : Type} (k : Str) (v : α) (m : List (Str × α)) : List (Str × α) :=
  if (m.lookup k).isSome then m.map (fun kv => if kv.1 = k then (k, v) else kv)
  else m ++ [(k, v)]

/-- The reserved default profile identifier. -/
def defaultProfileName : Str := s2l "decky-lsfg-vk"

/-- ConfigurationManager.generate_per_game_toml_content, as its lines. -/
def generate_per_game_toml_lines (config : ConfigurationData)
    (game_profiles : List (Str × ConfigurationData)) : List Str :=
  [s2l "version = 1", [], s2l "[global]", s2l "# Global settings"]
  ++ (if config.dll ≠ [] then
        [s2l "# specify where Lossless.dll is stored",
         s2l "dll = \"" ++ (config.dll ++ s2l "\"")]
      else [])
  ++ [s2l "# Enable per-game profiles",
      s2l "# per_game_profiles = " ++ boolStr config.per_game_profiles,
      []]
  ++ (if (game_profiles.lookup defaultProfileName).isSome then []
      else
        [s2l "[[game]]",
         s2l "# Default profile (uses LSFG_PROCESS=decky-lsfg-vk)",
         s2l "exe = \"decky-lsfg-vk\"",
         []]
        ++ profileFieldLines config)
  ++ game_profiles.flatMap (fun np =>
      [s2l "[[game]]",
       (if np.1 = defaultProfileName then
          s2l "# Default profile (uses LSFG_PROCESS=decky-lsfg-vk)"
        else s2l "# Profile for " ++ np.1),
       s2l "exe = \"" ++ (np.1 ++ s2l "\""),
       []]
      ++ profileFieldLines np.2)

/-- ConfigurationManager.generate_per_game_toml_content. -/
def generate_per_game_toml_content (config : ConfigurationData)
    (game_profiles : List (Str × ConfigurationData)) : Str :=
  joinSep '\n' (generate_per_game_toml_lines config game_profiles)

/-- Parser state of parse_per_game_toml_content. -/
structure PGSt where
  in_global : Bool
  in_game : Bool
  current_game_exe : Option Str
  current_game_config : Option ConfigurationData
  global_config : ConfigurationData
  game_profiles : List (Str × ConfigurationData)
  deriving DecidableEq, Repr

/-- The flush of the accumulated game profile performed by
parse_per_game_toml_content on each section header and at end of input:
the profile is stored only when the section is a game section with a
truthy (nonempty) exe and an accumulator. -/
def pgFlush (st : PGSt) : List (Str × ConfigurationData) :=
  match st.current_game_exe, st.current_game_config with
  | some e, some c =>
    if st.in_game && e ≠ [] then dictInsert e c st.game_profiles else st.game_profiles
  | _, _ => st.game_profiles

/-- The key = value handling of parse_per_game_toml_content, on the
stripped key and the unquoted stripped value.  Unlike the single-profile
parser, any game section accumulates fields (no exe gating), field
conversion failure stores the schema default for that field (the source
catches ValueError/TypeError and assigns field_def.default), and booleans
are compared against the word true only. -/
def pgKvDispatch (st : PGSt) (key value : Str) : PGSt :=
  if st.in_global then
    if key = s2l "dll" then
      { st with global_config := { st.global_config with dll := value } }
    else st
  else if st.in_game then
    match st.current_game_config with
    | none => st
    | some cur =>
      if key = s2l "exe" then { st with current_game_exe := some value }
      else if key = s2l "dll" then
        { st with current_game_config := some { cur with dll := value } }
      else if key = s2l "multiplier" then
        match pyInt value with
        | .ok n => { st with current_game_config := some { cur with multiplier := n } }
        | .error _ => { st with current_game_config := some { cur with multiplier := 1 } }
      else if key = s2l "flow_scale" then
        match pyFloat value with
        | .ok fl => { st with current_game_config := some { cur with flow_scale := fl } }
        | .error _ => { st with current_game_config := some { cur with flow_scale := ⟨s2l "0.8"⟩ } }
      else if key = s2l "performance_mode" then
        { st with current_game_config := some { cur with performance_mode := lower value = s2l "true" } }
      else if key = s2l "hdr_mode" then
        { st with current_game_config := some { cur with hdr_mode := lower value = s2l "true" } }
      else if key = s2l "experimental_present_mode" then
        { st with current_game_config := some { cur with experimental_present_mode := value } }
      else st
  else st

/-- One iteration of the parse_per_game_toml_content loop, on an already
stripped line. -/
def pgStepCore (st : PGSt) (line : Str) : PGSt :=
  if startsWith (s2l "# per_game_profiles =") line || startsWith (s2l "per_game_profiles =") line then
    let value_part :=
      if startsWith (s2l "# per_game_profiles =") line then
        strip (line.drop (s2l "# per_game_profiles =").length)
      else
        strip (line.drop (s2l "per_game_profiles =").length)
    { st with global_config := { st.global_config with per_game_profiles := boolTruthWords (lower value_part) } }
  else if decide (line = []) || startsWith (s2l "#") line then
    st
  else if startsWith (s2l "[") line && endsWithChar ']' line then
    let profiles := pgFlush st
    if line = s2l "[global]" then
      { in_global := true, in_game := false, current_game_exe := none,
        current_game_config := none, global_config := st.global_config, game_profiles := profiles }
    else if line = s2l "[[game]]" then
      { in_global := false, in_game := true, current_game_exe := none,
        current_game_config := some get_defaults, global_config := st.global_config,
        game_profiles := profiles }
    else
      { in_global := false, in_game := false, current_game_exe := none,
        current_game_config := none, global_config := st.global_config, game_profiles := profiles }
  else if containsChar '=' line then
    match splitOnce '=' line with
    | none => st
    | some (k, v) => pgKvDispatch st (strip k) (stripQuotes (strip v))
  else st

/-- One iteration of the parse_per_game_toml_content loop on a raw line. -/
def pgStep (st : PGSt) (rawLine : Str) : PGSt := pgStepCore st (strip rawLine)

/-- Initial state of the parse_per_game_toml_content loop. -/
def pgInit : PGSt where
  in_global := false
  in_game := false
  current_game_exe := none
  current_game_config := none
  global_config := get_defaults
  game_profiles := []

/-- ConfigurationManager.parse_per_game_toml_content: run the loop, flush
the last profile, return global configuration and profile map. -/
def parse_per_game_toml_content (content : Str) :
    ConfigurationData × List (Str × ConfigurationData) :=
  let st := (splitOnChar '\n' content).foldl pgStep pgInit
  (st.global_config, pgFlush st)

/-- The two keys update paths treat as global-only. -/
def isGlobalOnlyKey (k : Str) : Bool := k = s2l "dll" || k = s2l "per_game_profiles"

/-- dict(config) minus the two global-only keys, as built by the per-game
update paths for a profile payload. -/
def rawWithoutGlobalKeys (config : ConfigurationData) : RawConfig :=
  (configToRaw config).filter fun kv => !isGlobalOnlyKey kv.1

/-- The required_keys fill of update_game_profile: any of the listed
persisted fields missing from the payload is taken from the global
configuration (or, failing that, the schema defaults). -/
def requiredFill (ngc : RawConfig) (global_config : ConfigurationData) : RawConfig :=
  [s2l "multiplier", s2l "flow_scale", s2l "performance_mode", s2l "hdr_mode",
   s2l "experimental_present_mode"].foldl
    (fun m k =>
      if (m.lookup k).isSome then m
      else
        match (configToRaw global_config).lookup k with
        | some v => m ++ [(k, v)]
        | none => m ++ [(k, (configToRaw get_defaults).lookup k |>.getD (.s []))])
    ngc

/-- ConfigurationService.update_game_profile.  The existing structured
file is passed as its optional content; the returned pair is the response
together with the newly written file content (none when the call failed
before writing). -/
def update_game_profile (oldContent : Option Str) (game_name : Str) (config : ConfigurationData) :
    ConfigurationResponse × Option Str :=
  let parsed :=
    match oldContent with
    | none => (get_defaults, [])
    | some ct => parse_per_game_toml_content ct
  let global_config :=
    { parsed.1 with dll := config.dll, per_game_profiles := config.per_game_profiles }
  let new_game_config := requiredFill (rawWithoutGlobalKeys config) global_config
  match validate_config new_game_config with
  | .error _ =>
    ({ success := false, config := none, message := none,
       error := some (s2l "Error updating game profile") }, none)
  | .ok prof =>
    let game_profiles := dictInsert game_name prof parsed.2
    let toml := generate_per_game_toml_content global_config game_profiles
    ({ success := true, config := some config,
       message := some (s2l "Game profile updated successfully"), error := none }, some toml)

/-- ConfigurationService.update_config.  The existing structured file is
its optional content.  The whole active-profile detection phase of the
per-game branch (primary detector, membership validation and the two
process-table fallbacks, all inside one try) is summarised by detect: the
final current_profile value it computed, or an exception raised anywhere
in that phase.  The returned pair is the response together with the newly
written file content. -/
def update_config (oldContent : Option Str) (detect : Except Unit (Option Str))
    (dll : Str) (multiplier : Int) (flow_scale : PyFloat) (performance_mode hdr_mode : Bool)
    (experimental_present_mode : Str) (dxvk_frame_rate : Int)
    (enable_wow64 disable_steamdeck_mode per_game_profiles : Bool) :
    ConfigurationResponse × Option Str :=
  let config := create_config_from_args dll multiplier flow_scale performance_mode hdr_mode
    experimental_present_mode dxvk_frame_rate enable_wow64 disable_steamdeck_mode per_game_profiles
  if per_game_profiles then
    match validate_config (rawWithoutGlobalKeys config) with
    | .error _ =>
      ({ success := false, config := none, message := none,
         error := some (s2l "Error updating lsfg config") }, none)
    | .ok defaultProf =>
      let global_config := config
      let game_profiles :=
        match oldContent with
        | none => []
        | some ct =>
          let profiles0 := (parse_per_game_toml_content ct).2
          match detect with
          | .error _ => dictInsert defaultProfileName defaultProf profiles0
          | .ok current_profile =>
            let base := dictInsert defaultProfileName defaultProf profiles0
            match current_profile with
            | some p =>
              if p ≠ defaultProfileName then
                match profiles0.lookup p with
                | some oldp =>
                  match validate_config
                      ((rawWithoutGlobalKeys config).foldl
                        (fun m kv => dictInsert kv.1 kv.2 m) (configToRaw oldp)) with
                  | .ok updated => dictInsert p updated base
                  | .error _ => base
                | none => base
              else base
            | none => base
      let toml := generate_per_game_toml_content global_config game_profiles
      ({ success := true, config := some config,
         message := some (s2l "lsfg configuration updated successfully"), error := none }, some toml)
  else
    let toml := generate_toml_content config
    ({ success := true, config := some config,
       message := some (s2l "lsfg configuration updated successfully"), error := none }, some toml)

/-- One OS process as seen by ProcessDetectionService.get_current_active_profile:
the owner reported by stat (none = stat failed), the readable content of
its maps file (none = missing or unreadable), its comm name (none =
missing or unreadable) and its raw environ bytes (none = missing or
unreadable, e.g. permission denied or the process exited mid-scan). -/
structure ProcEntry where
  owner : Option Str
  mapsContent : Option Str
  comm : Option Str
  environ : Option Str
  deriving DecidableEq, Repr

/-- Substring test (Python "needle in haystack"). -/
def containsSub (needle : Str) : Str → Bool
  | [] => needle.isEmpty
  | c :: t => startsWith needle (c :: t) || containsSub needle t

/-- The first pass of get_current_active_profile: a process enters the
Vulkan candidate list when stat succeeded with the invoking user as owner,
its maps file is readable and mentions vulkan (case-insensitively), and
its comm file is readable. -/
def isVulkanProc (user : Str) (p : ProcEntry) : Bool :=
  (p.owner = some user) &&
  (match p.mapsContent with
   | some m => containsSub (s2l "vulkan") (lower m)
   | none => false) &&
  p.comm.isSome

/-- The LSFG_PROCESS value of one environment entry: the text after the
first equals sign of an entry starting with LSFG_PROCESS=. -/
def lsfgValue (env_var : Str) : Option Str :=
  if startsWith (s2l "LSFG_PROCESS=") env_var then
    some (env_var.drop (s2l "LSFG_PROCESS=").length)
  else none

/-- The inner loop over one environ block: the first LSFG_PROCESS value
that is nonempty and not the default identifier; entries whose value is
the default identifier are skipped and the scan continues. -/
def scanEnviron : List Str → Option Str
  | [] => none
  | v :: rest =>
    match lsfgValue v with
    | some name =>
      if name ≠ [] && name ≠ defaultProfileName then some name else scanEnviron rest
    | none => scanEnviron rest

/-- The outer loop of get_current_active_profile over the Vulkan candidate
list: processes whose environ is unreadable are skipped. -/
def scanProcs : List ProcEntry → Option Str
  | [] => none
  | p :: rest =>
    match p.environ with
    | none => scanProcs rest
    | some raw =>
      match scanEnviron (splitOnChar '\u0000' raw) with
      | some n => some n
      | none => scanProcs rest

/-- ProcessDetectionService.get_current_active_profile, over an explicit
process table (one entry per /proc process in scan order). -/
def get_current_active_profile (user : Str) (procs : List ProcEntry) : Option Str :=
  scanProcs (procs.filter (isVulkanProc user))

/-- Specification-level restatement of the detector, following the words
of the spec: among the user-owned Vulkan-mapped readable processes, in
order, the first LSFG_PROCESS value that is nonempty and not the default
identifier; none when every strategy input is exhausted. -/
def activeProfileFirstMatch (user : Str) (procs : List ProcEntry) : Option Str :=
  ((procs.filter (isVulkanProc user)).flatMap fun p =>
    match p.environ with
    | none => []
    | some raw => (splitOnChar '\u0000' raw).filterMap lsfgValue).find?
    fun v => decide (v ≠ []) && decide (v ≠ defaultProfileName)

/-! ## String toolkit lemmas -/

/-- Structural reference version of splitOnChar, used for reasoning. -/
def splitOnCharR (sep : Char) : Str → List Str
  | [] => [[]]
  | c :: cs =>
    match splitOnCharR sep cs with
    | [] => [[c]]
    | h :: t => if c = sep then [] :: h :: t else (c :: h) :: t

/-- Prepend a chunk onto the head of a chunk list. -/
def consHead (p : Str) : List Str → List Str
  | [] => [p]
  | h :: t => (p ++ h) :: t

theorem splitOnCharR_ne_nil (sep : Char) (s : Str) : splitOnCharR sep s ≠ [] := by
  cases s with
  | nil => simp [splitOnCharR]
  | cons c cs =>
    simp only [splitOnCharR]
    cases splitOnCharR sep cs with
    | nil => simp
    | cons h t =>
      by_cases hc : c = sep <;> simp [hc]

theorem splitOnCharAux_eq (sep : Char) :
    ∀ (s cur : Str) (out : List Str),
      splitOnCharAux sep s cur out = out.reverse ++ consHead cur.reverse (splitOnCharR sep s) := by
  intro s
  induction s with
  | nil => intro cur out; simp [splitOnCharAux, splitOnCharR, consHead]
  | cons c cs ih =>
    intro cur out
    by_cases hc : c = sep
    · subst hc
      simp only [splitOnCharAux, if_pos rfl, splitOnCharR]
      rw [ih]
      rcases hR : splitOnCharR c cs with _ | ⟨h, t⟩
      · exact absurd hR (splitOnCharR_ne_nil c cs)
      · simp [consHead]
    · simp only [splitOnCharAux, if_neg hc, splitOnCharR]
      rw [ih]
      rcases hR : splitOnCharR sep cs with _ | ⟨h, t⟩
      · exact absurd hR (splitOnCharR_ne_nil sep cs)
      · simp [consHead, if_neg hc]

theorem splitOnChar_eq_R (sep : Char) (s : Str) : splitOnChar sep s = splitOnCharR sep s := by
  rw [splitOnChar, splitOnCharAux_eq]
  rcases hR : splitOnCharR sep s with _ | ⟨h, t⟩
  · exact absurd hR (splitOnCharR_ne_nil sep s)
  · simp [consHead]

theorem splitOnCharR_of_not_mem {sep : Char} {s : Str} (h : sep ∉ s) :
    splitOnCharR sep s = [s] := by
  induction s with
  | nil => rfl
  | cons c cs ih =>
    simp only [List.mem_cons, not_or] at h
    simp only [splitOnCharR, ih h.2]
    simp [Ne.symm h.1]

theorem splitOnCharR_append {sep : Char} {l : Str} (r : Str) (h : sep ∉ l) :
    splitOnCharR sep (l ++ sep :: r) = l :: splitOnCharR sep r := by
  induction l with
  | nil =>
    simp only [List.nil_append, splitOnCharR]
    rcases hR : splitOnCharR sep r with _ | ⟨hd, t⟩
    · exact absurd hR (splitOnCharR_ne_nil sep r)
    · simp
  | cons c cs ih =>
    simp only [List.mem_cons, not_or] at h
    rw [List.cons_append]
    simp only [splitOnCharR]
    rw [ih h.2]
    have hcs : ¬c = sep := fun hc => h.1 hc.symm
    simp only [if_neg hcs]

theorem splitOnChar_joinSep (sep : Char) (ls : List Str)
    (h : ∀ l ∈ ls, sep ∉ l) (hne : ls ≠ []) :
    splitOnChar sep (joinSep sep ls) = ls := by
  rw [splitOnChar_eq_R]
  induction ls with
  | nil => exact absurd rfl hne
  | cons l rest ih =>
    cases rest with
    | nil =>
      simp only [joinSep]
      exact splitOnCharR_of_not_mem (h l (by simp))
    | cons l2 rest2 =>
      have hl : sep ∉ l := h l (by simp)
      rw [show joinSep sep (l :: l2 :: rest2) = l ++ sep :: joinSep sep (l2 :: rest2) from rfl,
        splitOnCharR_append _ hl]
      rw [ih (fun x hx => h x (by simp [hx])) (by simp)]

/-! strip lemmas -/

theorem stripR_concat {c : Char} (s : Str) (h : isWS c = false) :
    stripR (s ++ [c]) = s ++ [c] := by
  simp [stripR, List.dropWhile_cons, h]

theorem strip_eq_self_of {s : Str}
    (h1 : ∀ c, s.head? = some c → isWS c = false)
    (h2 : ∀ c, s.getLast? = some c → isWS c = false) : strip s = s := by
  cases s with
  | nil => rfl
  | cons a t =>
    have ha : isWS a = false := h1 a rfl
    have hL : stripL (a :: t) = a :: t := by simp [stripL, List.dropWhile_cons, ha]
    rw [strip, hL]
    have hne : (a :: t) ≠ ([] : Str) := by simp
    have hsplit : (a :: t) = (a :: t).dropLast ++ [(a :: t).getLast hne] :=
      (List.dropLast_append_getLast hne).symm
    have hlast : isWS ((a :: t).getLast hne) = false :=
      h2 _ (List.getLast?_eq_getLast _ hne)
    rw [hsplit]
    exact stripR_concat _ hlast

/-! startsWith and splitOnce lemmas -/

theorem startsWith_append_self (p t : Str) : startsWith p (p ++ t) = true := by
  induction p with
  | nil => simp [startsWith]
  | cons c cs ih => simp [startsWith, ih]

theorem splitOnce_append {sep : Char} {pre : Str} (rest : Str) (h : sep ∉ pre) :
    splitOnce sep (pre ++ sep :: rest) = some (pre, rest) := by
  induction pre with
  | nil => simp [splitOnce]
  | cons c cs ih =>
    simp only [List.mem_cons, not_or] at h
    have hcs : ¬c = sep := fun hc => h.1 hc.symm
    rw [List.cons_append]
    simp only [splitOnce, List.append_eq, if_neg hcs]
    rw [ih h.2]

theorem stripQuotes_wrap (s : Str) : stripQuotes ('"' :: (s ++ ['"'])) = s := by
  have h1 : startsWith (s2l "\"") ('"' :: (s ++ ['"'])) = true := by
    simp [startsWith, s2l]
  have h2 : endsWithChar '"' ('"' :: (s ++ ['"'])) = true := by
    simp only [endsWithChar, decide_eq_true_eq]
    rw [← List.cons_append, List.getLast?_concat]
  simp [stripQuotes, h1, h2]

/-! ## Decimal and float toolkit lemmas -/

theorem digitChar_isDigit {d : Nat} (h : d < 10) : (digitChar d).isDigit = true := by
  interval_cases d <;> decide

theorem digitVal_digitChar {d : Nat} (h : d < 10) : digitVal (digitChar d) = d := by
  interval_cases d <;> decide

theorem isWS_eq_false_of_digit {c : Char} (h : c.isDigit = true) : isWS c = false := by
  by_contra hne
  rw [Bool.not_eq_false] at hne
  simp only [isWS, Bool.or_eq_true, decide_eq_true_eq] at hne
  rcases hne with ((((rfl | rfl) | rfl) | rfl) | rfl) | rfl <;> exact absurd h (by decide)

theorem natToCharsAux_all_digit :
    ∀ (fuel n : Nat), ∀ c ∈ natToCharsAux fuel n, c.isDigit = true := by
  intro fuel
  induction fuel with
  | zero => intro n c hc; simp [natToCharsAux] at hc
  | succ f ih =>
    intro n c hc
    by_cases hn : n = 0
    · subst hn; simp [natToCharsAux] at hc
    · rw [natToCharsAux, if_neg hn] at hc
      rcases List.mem_append.mp hc with h1 | h2
      · exact ih _ c h1
      · rcases List.mem_singleton.mp h2 with rfl
        exact digitChar_isDigit (Nat.mod_lt n (by omega))

theorem natToChars_all_digit (n : Nat) : ∀ c ∈ natToChars n, c.isDigit = true := by
  intro c hc
  rw [natToChars] at hc
  by_cases hn : n = 0
  · rw [if_pos hn] at hc; rcases List.mem_singleton.mp hc with rfl; decide
  · rw [if_neg hn] at hc; exact natToCharsAux_all_digit n n c hc

theorem natToChars_concat (n : Nat) :
    ∃ l d, natToChars n = l ++ [digitChar d] ∧ d < 10 := by
  by_cases hn : n = 0
  · exact ⟨[], 0, by simp [natToChars, hn, digitChar], by omega⟩
  · rcases n with _ | f
    · exact absurd rfl hn
    · refine ⟨natToCharsAux f ((f + 1) / 10), (f + 1) % 10, ?_, Nat.mod_lt _ (by omega)⟩
      rw [natToChars, if_neg hn, natToCharsAux, if_neg hn]

theorem natToChars_ne_nil (n : Nat) : natToChars n ≠ [] := by
  rcases natToChars_concat n with ⟨l, d, heq, _⟩
  simp [heq]

theorem natToCharsAux_foldl (fuel : Nat) :
    ∀ n acc, n ≤ fuel →
      (natToCharsAux fuel n).foldl (fun a c => 10 * a + digitVal c) acc
        = acc * 10 ^ (natToCharsAux fuel n).length + n := by
  induction fuel with
  | zero =>
    intro n acc h
    interval_cases n
    simp [natToCharsAux]
  | succ f ih =>
    intro n acc h
    by_cases hn : n = 0
    · subst hn; simp [natToCharsAux]
    · rw [natToCharsAux, if_neg hn, List.foldl_append]
      have hle : n / 10 ≤ f := by
        have h1 : n / 10 < n := Nat.div_lt_self (Nat.pos_of_ne_zero hn) (by omega)
        omega
      rw [ih (n / 10) acc hle]
      simp only [List.foldl_cons, List.foldl_nil, List.length_append, List.length_cons,
        List.length_nil, Nat.zero_add]
      rw [digitVal_digitChar (Nat.mod_lt n (by omega))]
      have hdm : 10 * (n / 10) + n % 10 = n := Nat.div_add_mod n 10
      calc 10 * (acc * 10 ^ (natToCharsAux f (n / 10)).length + n / 10) + n % 10
          = acc * (10 ^ (natToCharsAux f (n / 10)).length * 10) + (10 * (n / 10) + n % 10) := by
            ring
        _ = acc * 10 ^ ((natToCharsAux f (n / 10)).length + 1) + n := by
            rw [hdm, pow_succ]

theorem parseNat_natToChars (n : Nat) : parseNat (natToChars n) = some n := by
  have hall : (natToChars n).all Char.isDigit = true := by
    rw [List.all_eq_true]
    intro x hx
    exact natToChars_all_digit n x hx
  rw [parseNat, if_neg (natToChars_ne_nil n), if_pos hall]
  by_cases hn : n = 0
  · subst hn; simp [natToChars, digitVal]
  · rw [natToChars, if_neg hn, natToCharsAux_foldl n n 0 (le_refl n)]
    simp

theorem natToChars_getLast_digit (n : Nat) :
    ∀ c, (natToChars n).getLast? = some c → c.isDigit = true := by
  intro c hc
  rcases natToChars_concat n with ⟨l, d, heq, hd⟩
  rw [heq, List.getLast?_concat] at hc
  rcases Option.some_injective _ hc.symm with rfl
  exact digitChar_isDigit hd

theorem strip_natToChars (n : Nat) : strip (natToChars n) = natToChars n := by
  apply strip_eq_self_of
  · intro c hc
    have : c ∈ natToChars n := by
      rcases List.exists_cons_of_ne_nil (natToChars_ne_nil n) with ⟨x, t, heq⟩
      rw [heq] at hc ⊢
      rcases Option.some_injective _ hc.symm with rfl
      simp
    exact isWS_eq_false_of_digit (natToChars_all_digit n c this)
  · intro c hc
    exact isWS_eq_false_of_digit (natToChars_getLast_digit n c hc)

theorem digit_ne_minus {c : Char} (h : c.isDigit = true) : (c = '-') = False := by
  simp only [eq_iff_iff, iff_false]
  rintro rfl; exact absurd h (by decide)

theorem digit_ne_plus {c : Char} (h : c.isDigit = true) : (c = '+') = False := by
  simp only [eq_iff_iff, iff_false]
  rintro rfl; exact absurd h (by decide)

theorem strip_neg_natToChars (m : Nat) :
    strip ('-' :: natToChars m) = '-' :: natToChars m := by
  apply strip_eq_self_of
  · intro c hc
    rcases Option.some_injective _ hc.symm with rfl
    decide
  · intro c hc
    rcases natToChars_concat m with ⟨l, d, heq, hd⟩
    rw [heq, ← List.cons_append, List.getLast?_concat] at hc
    rcases Option.some_injective _ hc.symm with rfl
    exact isWS_eq_false_of_digit (digitChar_isDigit hd)

theorem pyInt_intToChars (i : Int) : pyInt (intToChars i) = .ok i := by
  by_cases hneg : i < 0
  · rw [intToChars, if_pos hneg, pyInt]
    simp only [strip_neg_natToChars, List.head?_cons, List.tail_cons, Option.some_inj,
      eq_self_iff_true, if_true, parseNat_natToChars]
    congr 1
    rw [Int.ofNat_natAbs_of_nonpos (by omega), neg_neg]
  · rw [intToChars, if_neg hneg]
    rcases List.exists_cons_of_ne_nil (natToChars_ne_nil i.toNat) with ⟨c, t, heq⟩
    have hcd : c.isDigit = true := by
      apply natToChars_all_digit i.toNat
      rw [heq]; simp
    have hm : ((natToChars i.toNat).head? = some '-') = False := by
      rw [heq]
      simp only [List.head?_cons, Option.some_inj, eq_iff_iff, iff_false]
      intro hc; rw [hc] at hcd; exact absurd hcd (by decide)
    have hp : ((natToChars i.toNat).head? = some '+') = False := by
      rw [heq]
      simp only [List.head?_cons, Option.some_inj, eq_iff_iff, iff_false]
      intro hc; rw [hc] at hcd; exact absurd hcd (by decide)
    rw [pyInt]
    simp only [strip_natToChars, hm, if_false, hp, parseNat_natToChars]
    congr 1
    omega

theorem intToChars_no_nl (i : Int) : '\n' ∉ intToChars i := by
  intro hmem
  rw [intToChars] at hmem
  by_cases hneg : i < 0
  · rw [if_pos hneg] at hmem
    rcases List.mem_cons.mp hmem with h | h
    · exact absurd h (by decide)
    · exact absurd (natToChars_all_digit _ _ h) (by decide)
  · rw [if_neg hneg] at hmem
    exact absurd (natToChars_all_digit _ _ hmem) (by decide)

/-! float literal lemmas -/

theorem floatLit_parts {s : Str} (h : floatLit s = true) :
    s.isEmpty = false ∧ s.all floatChar = true ∧
      (match s.head? with | some c => c.isDigit || c = '-' | none => false) = true ∧
      (match s.getLast? with | some c => c.isDigit | none => false) = true := by
  rw [floatLit] at h
  simp only [Bool.and_eq_true, Bool.not_eq_true'] at h
  exact ⟨h.1.1.1, h.1.1.2, h.1.2, h.2⟩

theorem floatLit_ne_nil {s : Str} (h : floatLit s = true) : s ≠ [] := by
  rcases floatLit_parts h with ⟨h1, -, -, -⟩
  intro heq; rw [heq] at h1; exact absurd h1 (by decide)

theorem floatLit_strip {s : Str} (h : floatLit s = true) : strip s = s := by
  rcases floatLit_parts h with ⟨-, -, h3, h4⟩
  apply strip_eq_self_of
  · intro c hc
    rw [hc] at h3
    rcases Bool.or_eq_true_iff.mp h3 with hd | hm
    · exact isWS_eq_false_of_digit hd
    · rw [decide_eq_true_eq] at hm; subst hm; decide
  · intro c hc
    rw [hc] at h4
    exact isWS_eq_false_of_digit h4

theorem floatLit_no_nl {s : Str} (h : floatLit s = true) : '\n' ∉ s := by
  rcases floatLit_parts h with ⟨-, h2, -, -⟩
  intro hmem
  rw [List.all_eq_true] at h2
  exact absurd (h2 _ hmem) (by decide)

theorem pyFloat_of_lit {s : Str} (h : floatLit s = true) : pyFloat s = .ok ⟨s⟩ := by
  rw [pyFloat]
  simp only [floatLit_strip h, h, if_pos]

/-! ## Line-level lemmas for the single-profile parser -/

theorem containsChar_append (c : Char) (a b : Str) :
    containsChar c (a ++ b) = (containsChar c a || containsChar c b) := by
  simp [containsChar, List.any_append]

theorem intToChars_first (i : Int) :
    ∃ c t, intToChars i = c :: t ∧ (c.isDigit = true ∨ c = '-') := by
  by_cases hneg : i < 0
  · exact ⟨'-', natToChars i.natAbs, by rw [intToChars, if_pos hneg], Or.inr rfl⟩
  · rcases List.exists_cons_of_ne_nil (natToChars_ne_nil i.toNat) with ⟨c, t, heq⟩
    refine ⟨c, t, by rw [intToChars, if_neg hneg, heq], Or.inl ?_⟩
    exact natToChars_all_digit i.toNat c (by rw [heq]; simp)

theorem intToChars_concat (i : Int) :
    ∃ pre z, intToChars i = pre ++ [z] ∧ z.isDigit = true := by
  rcases natToChars_concat (if i < 0 then i.natAbs else i.toNat) with ⟨l, d, heq, hd⟩
  by_cases hneg : i < 0
  · rw [if_pos hneg] at heq
    exact ⟨'-' :: l, digitChar d, by rw [intToChars, if_pos hneg, heq, List.cons_append],
      digitChar_isDigit hd⟩
  · rw [if_neg hneg] at heq
    exact ⟨l, digitChar d, by rw [intToChars, if_neg hneg, heq], digitChar_isDigit hd⟩

theorem digit_ne_quote2 {c : Char} (h : c.isDigit = true) : (('"' : Char) = c) = False := by
  simp only [eq_iff_iff, iff_false]
  rintro rfl; exact absurd h (by decide)

theorem digit_ne_quote1 {c : Char} (h : c.isDigit = true) : (('\'' : Char) = c) = False := by
  simp only [eq_iff_iff, iff_false]
  rintro rfl; exact absurd h (by decide)

/-- The value text of a quoted generated line: a space, a double quote,
the payload and a closing double quote; stripping and unquoting recover
the payload. -/
theorem val_quoted (s : Str) : stripQuotes (strip (s2l " \"" ++ (s ++ ['"']))) = s := by
  rw [show s2l " \"" ++ (s ++ ['"']) = ' ' :: ('"' :: (s ++ ['"'])) from rfl]
  rw [show strip (' ' :: ('"' :: (s ++ ['"']))) = '"' :: (s ++ ['"']) from by
    rw [strip, show stripL (' ' :: ('"' :: (s ++ ['"']))) = '"' :: (s ++ ['"']) from by
      simp +decide [stripL, List.dropWhile_cons]]
    rw [show ('"' :: (s ++ ['"'])) = ('"' :: s) ++ ['"'] from by simp]
    exact stripR_concat _ (by decide)]
  rw [stripQuotes_wrap]

/-- The value text of an unquoted generated line: a space then a bare
token with non-blank ends not starting with a quote; stripping and
unquoting leave the token. -/
theorem val_unquoted (tok : Str) (c z : Char) (t pre : Str)
    (hfirst : tok = c :: t) (hlast : tok = pre ++ [z])
    (hcw : isWS c = false) (hzw : isWS z = false)
    (hq1 : (('"' : Char) = c) = False) (hq2 : (('\'' : Char) = c) = False) :
    stripQuotes (strip (' ' :: tok)) = tok := by
  have hstrip : strip (' ' :: tok) = tok := by
    rw [strip, show stripL (' ' :: tok) = stripL tok from by
      simp +decide [stripL, List.dropWhile_cons]]
    rw [show stripL tok = tok from by rw [hfirst]; simp [stripL, List.dropWhile_cons, hcw]]
    rw [hlast]
    exact stripR_concat _ hzw
  have hs1 : startsWith (s2l "\"") tok = false := by
    rw [hfirst]
    simp only [show s2l "\"" = ['"'] from rfl, startsWith, hq1, decide_False, Bool.false_and]
  have hs2 : startsWith (s2l "'") tok = false := by
    rw [hfirst]
    simp only [show s2l "'" = ['\''] from rfl, startsWith, hq2, decide_False, Bool.false_and]
  rw [hstrip, stripQuotes, hs1, hs2]
  simp

/-- Processing one generated key = value line: when the line starts with a
harmless character (not a comment marker, bracket, or the letter p of the
per_game_profiles special case), has a non-blank last character and an
equals-free key part, the parser step reduces to the key/value dispatch on
the stripped key and unquoted value. -/
theorem stepE_kv_of_first (st : PSt) (keyPre rawVal : Str) (c : Char) (t : Str)
    (hfirst : keyPre = c :: t)
    (hch : (('#' : Char) = c) = False) (hcb : (('[' : Char) = c) = False)
    (hcp : (('p' : Char) = c) = False) (hcw : isWS c = false)
    (hkey : '=' ∉ keyPre)
    (hlast : ∃ pre z, keyPre ++ '=' :: rawVal = pre ++ [z] ∧ isWS z = false) :
    stepE st (keyPre ++ '=' :: rawVal) =
      kvDispatch st (strip keyPre) (stripQuotes (strip rawVal)) := by
  have hcons : keyPre ++ '=' :: rawVal = c :: (t ++ '=' :: rawVal) := by
    rw [hfirst, List.cons_append]
  have hstrip : strip (keyPre ++ '=' :: rawVal) = keyPre ++ '=' :: rawVal := by
    apply strip_eq_self_of
    · intro x hx; rw [hcons] at hx
      rcases Option.some_injective _ hx.symm with rfl; exact hcw
    · intro x hx
      rcases hlast with ⟨pre, z, hz, hzw⟩
      rw [hz, List.getLast?_concat] at hx
      rcases Option.some_injective _ hx.symm with rfl; exact hzw
  have hp1 : startsWith (s2l "# per_game_profiles =") (keyPre ++ '=' :: rawVal) = false := by
    rw [hcons, show s2l "# per_game_profiles =" = '#' :: s2l " per_game_profiles =" from rfl]
    simp only [startsWith, hch, decide_False, Bool.false_and]
  have hp2 : startsWith (s2l "per_game_profiles =") (keyPre ++ '=' :: rawVal) = false := by
    rw [hcons, show s2l "per_game_profiles =" = 'p' :: s2l "er_game_profiles =" from rfl]
    simp only [startsWith, hcp, decide_False, Bool.false_and]
  have hsh : startsWith (s2l "#") (keyPre ++ '=' :: rawVal) = false := by
    rw [hcons, show s2l "#" = ['#'] from rfl]
    simp only [startsWith, hch, decide_False, Bool.false_and]
  have hbr : startsWith (s2l "[") (keyPre ++ '=' :: rawVal) = false := by
    rw [hcons, show s2l "[" = ['['] from rfl]
    simp only [startsWith, hcb, decide_False, Bool.false_and]
  have hne : decide ((keyPre ++ '=' :: rawVal) = []) = false := by
    rw [hcons]; simp
  have hcc : containsChar '=' (keyPre ++ '=' :: rawVal) = true := by
    rw [containsChar_append]
    simp [containsChar]
  rw [stepE, hstrip, stepCore, hp1, hp2, hne, hsh, hbr, hcc, splitOnce_append rawVal hkey]
  simp

/-! Concrete-line step lemmas -/

theorem stepE_nil (st : PSt) : stepE st [] = .ok st := by
  simp +decide [stepE, stepCore, strip, stripL, stripR]

theorem stepE_version (st : PSt) : stepE st (s2l "version = 1") = .ok st := by
  simp +decide [stepE, stepCore, kvDispatch, strip, stripL, stripR, s2l, startsWith, splitOnce,
    containsChar, stripQuotes, endsWithChar, lower, lowerChar, boolTruthWords, pyInt, parseNat]

theorem stepE_global_hdr (st : PSt) :
    stepE st (s2l "[global]") = .ok { st with in_global := true, in_game := false } := by
  simp +decide [stepE, stepCore, strip, stripL, stripR, s2l, startsWith, endsWithChar]

theorem stepE_game_hdr (st : PSt) :
    stepE st (s2l "[[game]]") =
      .ok { st with in_global := false, in_game := true, current_game_exe := none } := by
  simp +decide [stepE, stepCore, strip, stripL, stripR, s2l, startsWith, endsWithChar]

theorem stepE_pgp_cmt (st : PSt) (b : Bool) :
    stepE st (s2l "# per_game_profiles = " ++ boolStr b) =
      .ok { st with config := { st.config with per_game_profiles := b } } := by
  cases b <;>
    simp +decide [stepE, stepCore, strip, stripL, stripR, s2l, startsWith, boolStr,
      lower, lowerChar, boolTruthWords]

/-- Any comment line other than the per_game_profiles special case is
skipped. -/
theorem stepE_comment (st : PSt) (l : Str)
    (h0 : strip l = l)
    (h1 : startsWith (s2l "#") l = true)
    (h2 : startsWith (s2l "# per_game_profiles =") l = false)
    (h3 : startsWith (s2l "per_game_profiles =") l = false) :
    stepE st l = .ok st := by
  rw [stepE, h0, stepCore, h2, h3, h1]
  simp

theorem stepE_dll (st : PSt) (s : Str) (hg : st.in_global = true) :
    stepE st (s2l "dll = \"" ++ (s ++ s2l "\"")) =
      .ok { st with config := { st.config with dll := s } } := by
  rw [show s2l "dll = \"" ++ (s ++ s2l "\"") = s2l "dll " ++ '=' :: (s2l " \"" ++ (s ++ ['"']))
    from rfl]
  rw [stepE_kv_of_first st (s2l "dll ") (s2l " \"" ++ (s ++ ['"'])) 'd' (s2l "ll ") rfl
    (by decide) (by decide) (by decide) (by decide) (by decide)
    ⟨s2l "dll = \"" ++ s, '"', by rw [show s2l "dll " ++ '=' :: (s2l " \"" ++ (s ++ ['"']))
      = s2l "dll = \"" ++ (s ++ ['"']) from rfl, ← List.append_assoc], by decide⟩]
  rw [show strip (s2l "dll ") = s2l "dll" from by decide, val_quoted]
  rw [kvDispatch, hg]
  simp

theorem stepE_multiplier (st : PSt) (n : Int)
    (hg : st.in_global = false) (hgm : st.in_game = true)
    (hexe : st.current_game_exe = some (s2l "decky-lsfg-vk")) :
    stepE st (s2l "multiplier = " ++ intToChars n) =
      .ok { st with config := { st.config with multiplier := n } } := by
  rcases intToChars_first n with ⟨c, t, hct, hcd⟩
  rcases intToChars_concat n with ⟨pre, z, hpz, hzd⟩
  rw [show s2l "multiplier = " ++ intToChars n
    = s2l "multiplier " ++ '=' :: (' ' :: intToChars n) from rfl]
  rw [stepE_kv_of_first st (s2l "multiplier ") (' ' :: intToChars n) 'm' (s2l "ultiplier ") rfl
    (by decide) (by decide) (by decide) (by decide) (by decide)
    ⟨s2l "multiplier = " ++ pre, z, by
      rw [show s2l "multiplier " ++ '=' :: (' ' :: intToChars n)
        = s2l "multiplier = " ++ intToChars n from rfl, hpz, ← List.append_assoc],
      isWS_eq_false_of_digit hzd⟩]
  rw [val_unquoted (intToChars n) c z t pre hct hpz
    (by rcases hcd with hd | hm
        · exact isWS_eq_false_of_digit hd
        · subst hm; decide)
    (isWS_eq_false_of_digit hzd)
    (by rcases hcd with hd | hm
        · exact digit_ne_quote2 hd
        · subst hm; decide)
    (by rcases hcd with hd | hm
        · exact digit_ne_quote1 hd
        · subst hm; decide)]
  rw [show strip (s2l "multiplier ") = s2l "multiplier" from by decide]
  rw [kvDispatch, hg, hgm, hexe]
  simp +decide [pyInt_intToChars n]

theorem stepE_exe (st : PSt) (name : Str)
    (hg : st.in_global = false) (hgm : st.in_game = true) :
    stepE st (s2l "exe = \"" ++ (name ++ s2l "\"")) =
      .ok { st with current_game_exe := some name } := by
  rw [show s2l "exe = \"" ++ (name ++ s2l "\"") = s2l "exe " ++ '=' :: (s2l " \"" ++ (name ++ ['"']))
    from rfl]
  rw [stepE_kv_of_first st (s2l "exe ") (s2l " \"" ++ (name ++ ['"'])) 'e' (s2l "xe ") rfl
    (by decide) (by decide) (by decide) (by decide) (by decide)
    ⟨s2l "exe = \"" ++ name, '"', by rw [show s2l "exe " ++ '=' :: (s2l " \"" ++ (name ++ ['"']))
      = s2l "exe = \"" ++ (name ++ ['"']) from rfl, ← List.append_assoc], by decide⟩]
  rw [show strip (s2l "exe ") = s2l "exe" from by decide, val_quoted]
  rw [kvDispatch, hg, hgm]
  simp

theorem stepE_flow (st : PSt) (f : PyFloat) (hf : floatLit f.lit = true)
    (hg : st.in_global = false) (hgm : st.in_game = true)
    (hexe : st.current_game_exe = some (s2l "decky-lsfg-vk")) :
    stepE st (s2l "flow_scale = " ++ f.lit) =
      .ok { st with config := { st.config with flow_scale := f } } := by
  rcases floatLit_parts hf with ⟨hne, -, hhd, hlst⟩
  rcases List.exists_cons_of_ne_nil (by intro he; rw [he] at hne; exact absurd hne (by decide) :
    f.lit ≠ []) with ⟨c, t, hct⟩
  have hcd : (c.isDigit || c = '-') = true := by rw [hct] at hhd; simpa using hhd
  have hlitne : f.lit ≠ [] := by intro he; rw [he] at hne; exact absurd hne (by decide)
  have hconcat : f.lit = f.lit.dropLast ++ [f.lit.getLast hlitne] :=
    (List.dropLast_append_getLast hlitne).symm
  have hz : (f.lit.getLast hlitne).isDigit = true := by
    have := List.getLast?_eq_getLast f.lit hlitne
    rw [this] at hlst; simpa using hlst
  rw [show s2l "flow_scale = " ++ f.lit = s2l "flow_scale " ++ '=' :: (' ' :: f.lit) from rfl]
  rw [stepE_kv_of_first st (s2l "flow_scale ") (' ' :: f.lit) 'f' (s2l "low_scale ") rfl
    (by decide) (by decide) (by decide) (by decide) (by decide)
    ⟨s2l "flow_scale = " ++ f.lit.dropLast, f.lit.getLast hlitne, by
      rw [show s2l "flow_scale " ++ '=' :: (' ' :: f.lit) = s2l "flow_scale = " ++ f.lit from rfl]
      conv_lhs => rw [hconcat]
      rw [← List.append_assoc], isWS_eq_false_of_digit hz⟩]
  rw [val_unquoted f.lit c (f.lit.getLast hlitne) t f.lit.dropLast hct hconcat
    (by rcases Bool.or_eq_true_iff.mp hcd with hd | hm
        · exact isWS_eq_false_of_digit hd
        · rw [decide_eq_true_eq] at hm; subst hm; decide)
    (isWS_eq_false_of_digit hz)
    (by rcases Bool.or_eq_true_iff.mp hcd with hd | hm
        · exact digit_ne_quote2 hd
        · rw [decide_eq_true_eq] at hm; subst hm; decide)
    (by rcases Bool.or_eq_true_iff.mp hcd with hd | hm
        · exact digit_ne_quote1 hd
        · rw [decide_eq_true_eq] at hm; subst hm; decide)]
  rw [show strip (s2l "flow_scale ") = s2l "flow_scale" from by decide]
  rw [kvDispatch, hg, hgm, hexe]
  rw [pyFloat_of_lit hf]
  simp +decide

theorem stepE_perf (st : PSt) (b : Bool)
    (hg : st.in_global = false) (hgm : st.in_game = true)
    (hexe : st.current_game_exe = some (s2l "decky-lsfg-vk")) :
    stepE st (s2l "performance_mode = " ++ boolStr b) =
      .ok { st with config := { st.config with performance_mode := b } } := by
  cases b <;>
    simp +decide [stepE, stepCore, kvDispatch, strip, stripL, stripR, s2l, startsWith, splitOnce,
      containsChar, stripQuotes, endsWithChar, lower, lowerChar, boolTruthWords, boolStr,
      hg, hgm, hexe]

theorem stepE_hdr (st : PSt) (b : Bool)
    (hg : st.in_global = false) (hgm : st.in_game = true)
    (hexe : st.current_game_exe = some (s2l "decky-lsfg-vk")) :
    stepE st (s2l "hdr_mode = " ++ boolStr b) =
      .ok { st with config := { st.config with hdr_mode := b } } := by
  cases b <;>
    simp +decide [stepE, stepCore, kvDispatch, strip, stripL, stripR, s2l, startsWith, splitOnce,
      containsChar, stripQuotes, endsWithChar, lower, lowerChar, boolTruthWords, boolStr,
      hg, hgm, hexe]

theorem stepE_epm (st : PSt) (s : Str)
    (hg : st.in_global = false) (hgm : st.in_game = true)
    (hexe : st.current_game_exe = some (s2l "decky-lsfg-vk")) :
    stepE st (s2l "experimental_present_mode = \"" ++ (s ++ s2l "\"")) =
      .ok { st with config := { st.config with experimental_present_mode := s } } := by
  rw [show s2l "experimental_present_mode = \"" ++ (s ++ s2l "\"")
    = s2l "experimental_present_mode " ++ '=' :: (s2l " \"" ++ (s ++ ['"'])) from rfl]
  rw [stepE_kv_of_first st (s2l "experimental_present_mode ") (s2l " \"" ++ (s ++ ['"'])) 'e'
    (s2l "xperimental_present_mode ") rfl
    (by decide) (by decide) (by decide) (by decide) (by decide)
    ⟨s2l "experimental_present_mode = \"" ++ s, '"', by
      rw [show s2l "experimental_present_mode " ++ '=' :: (s2l " \"" ++ (s ++ ['"']))
        = s2l "experimental_present_mode = \"" ++ (s ++ ['"']) from rfl, ← List.append_assoc],
      by decide⟩]
  rw [show strip (s2l "experimental_present_mode ") = s2l "experimental_present_mode" from by
    decide, val_quoted]
  rw [kvDispatch, hg, hgm, hexe]
  simp +decide

/-- Chaining the loop over one line when the step succeeds. -/
theorem foldlM_step_cons {l : Str} {ls : List Str} {st st' : PSt}
    (h : stepE st l = .ok st') :
    List.foldlM stepE st (l :: ls) = List.foldlM stepE st' ls := by
  rw [List.foldlM_cons, h]
  rfl

/-- Chaining form of foldlM_step_cons, for building parse runs by
successive refinement (the state is taken from the goal, so record-update
states need no explicit annotation). -/
theorem foldlM_chain {st st' : PSt} {l : Str} {ls : List Str} {r : Except Unit PSt}
    (h : stepE st l = .ok st') (h2 : List.foldlM stepE st' ls = r) :
    List.foldlM stepE st (l :: ls) = r := by
  rw [foldlM_step_cons h]; exact h2

/-- The loop over the five generated field lines of one game entry, for
the single-profile parser positioned inside the plugin-managed game
section. -/
theorem foldlM_profileFieldLines (st : PSt) (gc : ConfigurationData)
    (hfs : floatLit gc.flow_scale.lit = true)
    (hg : st.in_global = false) (hgm : st.in_game = true)
    (hexe : st.current_game_exe = some (s2l "decky-lsfg-vk")) (ls : List Str) :
    List.foldlM stepE st (profileFieldLines gc ++ ls) =
      List.foldlM stepE
        { st with config := { st.config with
            multiplier := gc.multiplier,
            flow_scale := gc.flow_scale,
            performance_mode := gc.performance_mode,
            hdr_mode := gc.hdr_mode,
            experimental_present_mode :=
              if gc.experimental_present_mode = [] then st.config.experimental_present_mode
              else gc.experimental_present_mode } } ls := by
  by_cases hepm : gc.experimental_present_mode = []
  · simp only [profileFieldLines, hepm, if_pos, ite_not, if_neg, List.cons_append,
      List.nil_append, List.append_assoc]
    refine foldlM_chain (stepE_comment _ _ (by decide) (by decide) (by decide) (by decide)) ?_
    refine foldlM_chain (stepE_multiplier _ gc.multiplier hg hgm hexe) ?_
    refine foldlM_chain (stepE_nil _) ?_
    refine foldlM_chain (stepE_comment _ _ (by decide) (by decide) (by decide) (by decide)) ?_
    refine foldlM_chain (stepE_flow _ gc.flow_scale hfs hg hgm hexe) ?_
    refine foldlM_chain (stepE_nil _) ?_
    refine foldlM_chain (stepE_comment _ _ (by decide) (by decide) (by decide) (by decide)) ?_
    refine foldlM_chain (stepE_perf _ gc.performance_mode hg hgm hexe) ?_
    refine foldlM_chain (stepE_nil _) ?_
    refine foldlM_chain (stepE_comment _ _ (by decide) (by decide) (by decide) (by decide)) ?_
    refine foldlM_chain (stepE_hdr _ gc.hdr_mode hg hgm hexe) ?_
    refine foldlM_chain (stepE_nil _) ?_
    refine foldlM_chain (stepE_comment _ _ (by decide) (by decide) (by decide) (by decide)) ?_
    refine foldlM_chain (stepE_nil _) ?_
    rfl
  · simp only [profileFieldLines, hepm, ite_not, if_neg, List.cons_append,
      List.nil_append, List.append_assoc]
    refine foldlM_chain (stepE_comment _ _ (by decide) (by decide) (by decide) (by decide)) ?_
    refine foldlM_chain (stepE_multiplier _ gc.multiplier hg hgm hexe) ?_
    refine foldlM_chain (stepE_nil _) ?_
    refine foldlM_chain (stepE_comment _ _ (by decide) (by decide) (by decide) (by decide)) ?_
    refine foldlM_chain (stepE_flow _ gc.flow_scale hfs hg hgm hexe) ?_
    refine foldlM_chain (stepE_nil _) ?_
    refine foldlM_chain (stepE_comment _ _ (by decide) (by decide) (by decide) (by decide)) ?_
    refine foldlM_chain (stepE_perf _ gc.performance_mode hg hgm hexe) ?_
    refine foldlM_chain (stepE_nil _) ?_
    refine foldlM_chain (stepE_comment _ _ (by decide) (by decide) (by decide) (by decide)) ?_
    refine foldlM_chain (stepE_hdr _ gc.hdr_mode hg hgm hexe) ?_
    refine foldlM_chain (stepE_nil _) ?_
    refine foldlM_chain (stepE_comment _ _ (by decide) (by decide) (by decide) (by decide)) ?_
    refine foldlM_chain (stepE_epm _ gc.experimental_present_mode hg hgm hexe) ?_
    refine foldlM_chain (stepE_nil _) ?_
    rfl

theorem no_nl_append {a b : Str} (ha : '\n' ∉ a) (hb : '\n' ∉ b) : '\n' ∉ a ++ b := by
  simp only [List.mem_append]
  rintro (h | h)
  exacts [ha h, hb h]

theorem boolStr_no_nl (b : Bool) : '\n' ∉ boolStr b := by
  cases b <;> decide

theorem profileFieldLines_no_nl (gc : ConfigurationData)
    (hepm : '\n' ∉ gc.experimental_present_mode)
    (hfs : floatLit gc.flow_scale.lit = true) :
    ∀ l ∈ profileFieldLines gc, '\n' ∉ l := by
  intro l hl
  rw [profileFieldLines] at hl
  simp only [List.cons_append, List.nil_append, List.append_assoc, List.mem_cons,
    List.mem_append, List.not_mem_nil, or_false] at hl
  rcases hl with rfl | rfl | rfl | rfl | rfl | rfl | rfl | rfl | rfl | rfl | rfl | rfl | rfl | hl
  · decide
  · exact no_nl_append (by decide) (intToChars_no_nl gc.multiplier)
  · decide
  · decide
  · exact no_nl_append (by decide) (floatLit_no_nl hfs)
  · decide
  · decide
  · exact no_nl_append (by decide) (boolStr_no_nl gc.performance_mode)
  · decide
  · decide
  · exact no_nl_append (by decide) (boolStr_no_nl gc.hdr_mode)
  · decide
  · decide
  · rcases hl with hl | rfl
    · by_cases he : gc.experimental_present_mode ≠ []
      · rw [if_pos he] at hl
        rcases List.mem_singleton.mp hl with rfl
        exact no_nl_append (by decide) (no_nl_append hepm (by decide))
      · rw [if_neg he] at hl
        exact absurd hl (List.not_mem_nil l)
    · exact List.not_mem_nil '\n'

theorem generate_toml_lines_no_nl (C : ConfigurationData)
    (hdll : '\n' ∉ C.dll) (hepm : '\n' ∉ C.experimental_present_mode)
    (hfs : floatLit C.flow_scale.lit = true) :
    ∀ l ∈ generate_toml_lines C, '\n' ∉ l := by
  intro l hl
  rw [generate_toml_lines] at hl
  simp only [List.cons_append, List.nil_append, List.append_assoc, List.mem_cons,
    List.mem_append] at hl
  rcases hl with rfl | rfl | hl
  · decide
  · exact List.not_mem_nil '\n'
  rcases hl with hl | hl
  · by_cases hd : C.dll ≠ []
    · rw [if_pos hd] at hl
      simp only [List.mem_cons, List.not_mem_nil, or_false] at hl
      rcases hl with rfl | rfl | rfl | rfl | rfl | rfl | rfl
      · decide
      · decide
      · decide
      · exact no_nl_append (by decide) (no_nl_append hdll (by decide))
      · decide
      · exact no_nl_append (by decide) (boolStr_no_nl C.per_game_profiles)
      · exact List.not_mem_nil '\n'
    · rw [if_neg hd] at hl
      exact absurd hl (List.not_mem_nil l)
  rcases hl with rfl | rfl | rfl | rfl | hl
  · decide
  · decide
  · decide
  · exact List.not_mem_nil '\n'
  · exact profileFieldLines_no_nl C hepm hfs l hl

/-- The concrete plugin-managed exe line of the single-profile format. -/
theorem stepE_exe_default (st : PSt)
    (hg : st.in_global = false) (hgm : st.in_game = true) :
    stepE st (s2l "exe = \"decky-lsfg-vk\"") =
      .ok { st with current_game_exe := some (s2l "decky-lsfg-vk") } := by
  exact stepE_exe st (s2l "decky-lsfg-vk") hg hgm

/-- Master round-trip for the single-profile codec: parsing the generated
text recovers, on top of schema defaults, the dll path, the four plain
game fields, the experimental present mode when nonempty (an empty string
is not emitted and parses back as the default), and the per-game-profiles
flag when the global section was emitted at all (it is skipped entirely
when dll is empty). -/
theorem parse_gen_single (C : ConfigurationData)
    (hdll : '\n' ∉ C.dll) (hepm : '\n' ∉ C.experimental_present_mode)
    (hfs : floatLit C.flow_scale.lit = true) :
    parse_toml_content (generate_toml_content C) =
      { get_defaults with
          dll := C.dll
          multiplier := C.multiplier
          flow_scale := C.flow_scale
          performance_mode := C.performance_mode
          hdr_mode := C.hdr_mode
          experimental_present_mode :=
            if C.experimental_present_mode = [] then s2l "fifo"
            else C.experimental_present_mode
          per_game_profiles := if C.dll = [] then false else C.per_game_profiles } := by
  have hnl := generate_toml_lines_no_nl C hdll hepm hfs
  have hne : generate_toml_lines C ≠ [] := by
    rw [generate_toml_lines]
    by_cases hd : C.dll ≠ [] <;> simp [hd]
  have hsplit : splitOnChar '\n' (generate_toml_content C) = generate_toml_lines C :=
    splitOnChar_joinSep '\n' (generate_toml_lines C) hnl hne
  by_cases hd : C.dll = []
  · have hrun : List.foldlM stepE pInit (generate_toml_lines C) =
        .ok { in_global := false, in_game := true,
              current_game_exe := some (s2l "decky-lsfg-vk"),
              config := { get_defaults with
                multiplier := C.multiplier
                flow_scale := C.flow_scale
                performance_mode := C.performance_mode
                hdr_mode := C.hdr_mode
                experimental_present_mode :=
                  if C.experimental_present_mode = [] then s2l "fifo"
                  else C.experimental_present_mode } } := by
      rw [generate_toml_lines, if_neg (by simp [hd])]
      simp only [List.cons_append, List.nil_append, List.append_assoc]
      refine foldlM_chain (stepE_version _) ?_
      refine foldlM_chain (stepE_nil _) ?_
      refine foldlM_chain (stepE_game_hdr _) ?_
      refine foldlM_chain (stepE_comment _ _ (by decide) (by decide) (by decide) (by decide)) ?_
      refine foldlM_chain (stepE_exe_default _ rfl rfl) ?_
      refine foldlM_chain (stepE_nil _) ?_
      rw [← List.append_nil (profileFieldLines C)]
      refine Eq.trans (foldlM_profileFieldLines _ C hfs rfl rfl rfl []) ?_
      rfl
    simp only [parse_toml_content, parse_toml_body, hsplit, hrun, Except.map]
    simp [hd, get_defaults]
  · have hrun : List.foldlM stepE pInit (generate_toml_lines C) =
        .ok { in_global := false, in_game := true,
              current_game_exe := some (s2l "decky-lsfg-vk"),
              config := { get_defaults with
                dll := C.dll
                multiplier := C.multiplier
                flow_scale := C.flow_scale
                performance_mode := C.performance_mode
                hdr_mode := C.hdr_mode
                experimental_present_mode :=
                  if C.experimental_present_mode = [] then s2l "fifo"
                  else C.experimental_present_mode
                per_game_profiles := C.per_game_profiles } } := by
      rw [generate_toml_lines, if_pos (by simp [hd])]
      simp only [List.cons_append, List.nil_append, List.append_assoc]
      refine foldlM_chain (stepE_version _) ?_
      refine foldlM_chain (stepE_nil _) ?_
      refine foldlM_chain (stepE_global_hdr _) ?_
      refine foldlM_chain (stepE_comment _ _ (by decide) (by decide) (by decide) (by decide)) ?_
      refine foldlM_chain (stepE_comment _ _ (by decide) (by decide) (by decide) (by decide)) ?_
      refine foldlM_chain (stepE_dll _ C.dll rfl) ?_
      refine foldlM_chain (stepE_comment _ _ (by decide) (by decide) (by decide) (by decide)) ?_
      refine foldlM_chain (stepE_pgp_cmt _ C.per_game_profiles) ?_
      refine foldlM_chain (stepE_nil _) ?_
      refine foldlM_chain (stepE_game_hdr _) ?_
      refine foldlM_chain (stepE_comment _ _ (by decide) (by decide) (by decide) (by decide)) ?_
      refine foldlM_chain (stepE_exe_default _ rfl rfl) ?_
      refine foldlM_chain (stepE_nil _) ?_
      rw [← List.append_nil (profileFieldLines C)]
      refine Eq.trans (foldlM_profileFieldLines _ C hfs rfl rfl rfl []) ?_
      rfl
    simp only [parse_toml_content, parse_toml_body, hsplit, hrun, Except.map]
    simp [hd, get_defaults]

/-! ## Totality of the single-profile parse loop -/

/-- Whether an exception-monad value is a success. -/
def exceptIsOk {ε α : Type} : Except ε α → Bool
  | .ok _ => true
  | .error _ => false

theorem kvDispatch_isOk (st : PSt) (k v : Str) : exceptIsOk (kvDispatch st k v) = true := by
  unfold kvDispatch
  by_cases h1 : st.in_global = true
  · rw [if_pos h1]
    by_cases h2 : k = s2l "dll"
    · rw [if_pos h2]; rfl
    · rw [if_neg h2]; rfl
  · rw [if_neg h1]
    by_cases h3 : st.in_game = true
    · rw [if_pos h3]
      by_cases h4 : k = s2l "exe"
      · rw [if_pos h4]; rfl
      · rw [if_neg h4]
        by_cases h5 : st.current_game_exe = some (s2l "decky-lsfg-vk")
        · rw [if_pos h5]
          by_cases h6 : k = s2l "dll"
          · rw [if_pos h6]; rfl
          · rw [if_neg h6]
            by_cases h7 : k = s2l "multiplier"
            · rw [if_pos h7]
              cases pyInt v with
              | ok n => rfl
              | error e => rfl
            · rw [if_neg h7]
              by_cases h8 : k = s2l "flow_scale"
              · rw [if_pos h8]
                cases pyFloat v with
                | ok fl => rfl
                | error e => rfl
              · rw [if_neg h8]
                by_cases h9 : k = s2l "performance_mode"
                · rw [if_pos h9]; rfl
                · rw [if_neg h9]
                  by_cases h10 : k = s2l "hdr_mode"
                  · rw [if_pos h10]; rfl
                  · rw [if_neg h10]
                    by_cases h11 : k = s2l "experimental_present_mode"
                    · rw [if_pos h11]; rfl
                    · rw [if_neg h11]; rfl
        · rw [if_neg h5]; rfl
    · rw [if_neg h3]; rfl

theorem stepE_isOk (st : PSt) (l : Str) : exceptIsOk (stepE st l) = true := by
  rw [stepE]
  unfold stepCore
  generalize strip l = t
  by_cases h1 : (startsWith (s2l "# per_game_profiles =") t
      || startsWith (s2l "per_game_profiles =") t) = true
  · rw [if_pos h1]; rfl
  · rw [if_neg h1]
    by_cases h2 : (decide (t = []) || startsWith (s2l "#") t) = true
    · rw [if_pos h2]; rfl
    · rw [if_neg h2]
      by_cases h3 : (startsWith (s2l "[") t && endsWithChar ']' t) = true
      · rw [if_pos h3]
        by_cases h4 : t = s2l "[global]"
        · rw [if_pos h4]; rfl
        · rw [if_neg h4]
          by_cases h5 : t = s2l "[[game]]"
          · rw [if_pos h5]; rfl
          · rw [if_neg h5]; rfl
      · rw [if_neg h3]
        by_cases h6 : containsChar '=' t = true
        · rw [if_pos h6]
          cases hsp : splitOnce '=' t with
          | none => rfl
          | some kv => exact kvDispatch_isOk st (strip kv.1) (stripQuotes (strip kv.2))
        · rw [if_neg h6]; rfl

theorem stepE_ok (st : PSt) (l : Str) : ∃ st', stepE st l = .ok st' := by
  have h := stepE_isOk st l
  cases he : stepE st l with
  | ok a => exact ⟨a, rfl⟩
  | error e => rw [he] at h; exact absurd h (by simp [exceptIsOk])

theorem foldlM_stepE_ok (ls : List Str) : ∀ st, ∃ st', List.foldlM stepE st ls = .ok st' := by
  induction ls with
  | nil => intro st; exact ⟨st, rfl⟩
  | cons l ls ih =>
    intro st
    rcases stepE_ok st l with ⟨st1, h1⟩
    rcases ih st1 with ⟨st2, h2⟩
    refine ⟨st2, ?_⟩
    rw [List.foldlM_cons, h1]
    simpa using h2

/-! ## Claim theorems: single-profile codec -/

/-- Claim C1 counterexample: with a fully-populated configuration whose
experimental_present_mode is the empty string, the serializer omits the
line (strings are emitted only when nonempty) and parsing the output
yields the schema default fifo instead, so parse after generate does not
recover that persisted field. -/
theorem claim_C1_counterexample :
    (parse_toml_content (generate_toml_content
        ⟨s2l "/tmp/Lossless.dll", 2, ⟨s2l "0.8"⟩, true, false, [], 0, false, false, false⟩)
      ).experimental_present_mode ≠
      (⟨s2l "/tmp/Lossless.dll", 2, ⟨s2l "0.8"⟩, true, false, [], 0, false, false, false⟩ :
        ConfigurationData).experimental_present_mode := by
  decide

/-- Claim C1 (amended): for every configuration whose string fields are
single-line, whose flow_scale literal is in the modelled float grammar,
and whose experimental_present_mode is nonempty, parsing the generated
single-profile text recovers the configuration on dll, multiplier,
flow_scale, performance_mode, hdr_mode and experimental_present_mode. -/
theorem claim_C1_roundtrip (C : ConfigurationData)
    (hdll : '\n' ∉ C.dll) (hepm : '\n' ∉ C.experimental_present_mode)
    (hfs : floatLit C.flow_scale.lit = true)
    (hepmne : C.experimental_present_mode ≠ []) :
    (parse_toml_content (generate_toml_content C)).dll = C.dll ∧
    (parse_toml_content (generate_toml_content C)).multiplier = C.multiplier ∧
    (parse_toml_content (generate_toml_content C)).flow_scale = C.flow_scale ∧
    (parse_toml_content (generate_toml_content C)).performance_mode = C.performance_mode ∧
    (parse_toml_content (generate_toml_content C)).hdr_mode = C.hdr_mode ∧
    (parse_toml_content (generate_toml_content C)).experimental_present_mode
      = C.experimental_present_mode := by
  rw [parse_gen_single C hdll hepm hfs]
  exact ⟨rfl, rfl, rfl, rfl, rfl, by simp [if_neg hepmne]⟩

/-- Witness for claim C1 at a concrete configuration. -/
theorem claim_C1_witness :
    (parse_toml_content (generate_toml_content
        ⟨s2l "/tmp/Lossless.dll", 3, ⟨s2l "0.85"⟩, false, true, s2l "mailbox", 0, false, false,
          true⟩)).multiplier = 3 ∧
    (parse_toml_content (generate_toml_content
        ⟨s2l "/tmp/Lossless.dll", 3, ⟨s2l "0.85"⟩, false, true, s2l "mailbox", 0, false, false,
          true⟩)).experimental_present_mode = s2l "mailbox" :=
  have h := claim_C1_roundtrip
    ⟨s2l "/tmp/Lossless.dll", 3, ⟨s2l "0.85"⟩, false, true, s2l "mailbox", 0, false, false, true⟩
    (by decide) (by decide) (by decide) (by decide)
  ⟨h.2.1, h.2.2.2.2.2⟩

/-- Claim C2 counterexample: with an empty dll path the whole global
section, including the commented per_game_profiles line, is skipped, so a
true flag serializes to a file that parses back with the flag false. -/
theorem claim_C2_counterexample :
    (parse_toml_content (generate_toml_content
        ⟨[], 1, ⟨s2l "0.8"⟩, true, false, s2l "fifo", 0, false, false, true⟩)
      ).per_game_profiles ≠
      (⟨[], 1, ⟨s2l "0.8"⟩, true, false, s2l "fifo", 0, false, false, true⟩ :
        ConfigurationData).per_game_profiles := by
  decide

/-- Claim C2 (amended): for every configuration with a nonempty dll path
(and single-line strings and a well-formed flow_scale literal), the
serializer emits the per-game-profiles flag in its commented form, never
as an uncommented line, and parsing the serialized output still recovers
the true boolean value, so serialize-parse-serialize preserves it. -/
theorem claim_C2_pgp_commented (C : ConfigurationData)
    (hdll : '\n' ∉ C.dll) (hepm : '\n' ∉ C.experimental_present_mode)
    (hfs : floatLit C.flow_scale.lit = true) (hdne : C.dll ≠ []) :
    (s2l "# per_game_profiles = " ++ boolStr C.per_game_profiles) ∈ generate_toml_lines C ∧
    (∀ l ∈ generate_toml_lines C, startsWith (s2l "per_game_profiles =") l = false) ∧
    (parse_toml_content (generate_toml_content C)).per_game_profiles = C.per_game_profiles := by
  refine ⟨?_, ?_, ?_⟩
  · rw [generate_toml_lines, if_pos (by simp [hdne])]
    simp
  · intro l hl
    rw [generate_toml_lines, if_pos (by simp [hdne])] at hl
    simp only [List.cons_append, List.nil_append, List.append_assoc, List.mem_cons,
      List.mem_append] at hl
    rcases hl with rfl | rfl | rfl | rfl | rfl | rfl | rfl | rfl | rfl | rfl | rfl | rfl | hl
    · decide
    · simp [startsWith]
    · decide
    · decide
    · decide
    · rw [show s2l "dll = \"" ++ (C.dll ++ s2l "\"") = 'd' :: (s2l "ll = \"" ++ (C.dll ++ s2l "\""))
        from rfl]
      simp [startsWith, s2l]
    · decide
    · cases C.per_game_profiles <;> decide
    · simp [startsWith]
    · decide
    · decide
    · decide
    rcases hl with rfl | hl
    · simp [startsWith]
    rw [profileFieldLines] at hl
    simp only [List.cons_append, List.nil_append, List.append_assoc, List.mem_cons,
      List.mem_append, List.not_mem_nil, or_false] at hl
    rcases hl with rfl | rfl | rfl | rfl | rfl | rfl | rfl | rfl | rfl | rfl | rfl | rfl | rfl | hl
    · decide
    · rcases intToChars_first C.multiplier with ⟨c, t, hct, -⟩
      rw [show s2l "multiplier = " ++ intToChars C.multiplier
        = 'm' :: (s2l "ultiplier = " ++ intToChars C.multiplier) from rfl]
      simp [startsWith, s2l]
    · simp [startsWith]
    · decide
    · rw [show s2l "flow_scale = " ++ C.flow_scale.lit
        = 'f' :: (s2l "low_scale = " ++ C.flow_scale.lit) from rfl]
      simp [startsWith, s2l]
    · simp [startsWith]
    · decide
    · cases C.performance_mode <;> decide
    · simp [startsWith]
    · decide
    · cases C.hdr_mode <;> decide
    · simp [startsWith]
    · decide
    rcases hl with hl | rfl
    · by_cases he : C.experimental_present_mode ≠ []
      · rw [if_pos he] at hl
        rcases List.mem_singleton.mp hl with rfl
        rw [show s2l "experimental_present_mode = \"" ++ (C.experimental_present_mode ++ s2l "\"")
          = 'e' :: (s2l "xperimental_present_mode = \""
              ++ (C.experimental_present_mode ++ s2l "\"")) from rfl]
        simp [startsWith, s2l]
      · rw [if_neg he] at hl
        exact absurd hl (List.not_mem_nil l)
    · simp [startsWith]
  · rw [parse_gen_single C hdll hepm hfs]
    simp [if_neg hdne]

/-- Witness for claim C2 at a concrete configuration with the flag on. -/
theorem claim_C2_witness :
    (parse_toml_content (generate_toml_content
        ⟨s2l "/tmp/Lossless.dll", 1, ⟨s2l "0.8"⟩, true, false, s2l "fifo", 0, false, false,
          true⟩)).per_game_profiles = true :=
  (claim_C2_pgp_commented
    ⟨s2l "/tmp/Lossless.dll", 1, ⟨s2l "0.8"⟩, true, false, s2l "fifo", 0, false, false, true⟩
    (by decide) (by decide) (by decide) (by decide)).2.2

/-- Claim C9: the single-profile parse never surfaces a failure.  The loop
body, with the Python exceptions of the int and float conversions tracked
in the exception monad, always returns ok (the two conversions are the
only raisers and both are guarded by the inner try), so for every input
string, including arbitrary malformed content, parse_toml_content returns
that fully-populated configuration rather than propagating an error or
falling into the outer defaults handler. -/
theorem claim_C9_parse_total (content : Str) :
    ∃ c : ConfigurationData, parse_toml_body content = .ok c ∧ parse_toml_content content = c := by
  rcases foldlM_stepE_ok (splitOnChar '\n' content) pInit with ⟨stF, hF⟩
  refine ⟨stF.config, ?_, ?_⟩
  · rw [parse_toml_body, hF]; rfl
  · rw [parse_toml_content, parse_toml_body, hF]; rfl

/-- Claim C10 counterexample: a per_game_profiles key = value line inside
a game section whose exe is not the plugin-managed identifier is still
applied to the result (the special case fires in any state), so such a
line does not leave the configuration unchanged. -/
theorem claim_C10_counterexample :
    (parse_toml_content (s2l "[[game]]\nexe = \"other\"\nper_game_profiles = true")
      ).per_game_profiles = true ∧
    get_defaults.per_game_profiles = false := by
  constructor <;> decide

/-- When positioned inside a game section whose tracked exe is not the
plugin-managed identifier, the key/value dispatch cannot touch the
configuration. -/
theorem kvDispatch_config_preserved (st : PSt) (k v : Str)
    (hg : st.in_global = false) (hgm : st.in_game = true)
    (hexe : st.current_game_exe ≠ some (s2l "decky-lsfg-vk")) :
    ∃ st', kvDispatch st k v = .ok st' ∧ st'.config = st.config := by
  unfold kvDispatch
  rw [hg, hgm]
  simp only [Bool.false_eq_true, if_false, if_true]
  by_cases h4 : k = s2l "exe"
  · rw [if_pos h4]; exact ⟨_, rfl, rfl⟩
  · rw [if_neg h4, if_neg hexe]
    exact ⟨st, rfl, rfl⟩

/-- Claim C10 (amended): inside a game section whose tracked exe is not
exactly decky-lsfg-vk (including before any exe line was seen), any line
other than the per_game_profiles special-case line leaves the parsed
configuration unchanged: the step succeeds and its state carries the same
configuration. -/
theorem claim_C10_gating (st : PSt) (line : Str)
    (hg : st.in_global = false) (hgm : st.in_game = true)
    (hexe : st.current_game_exe ≠ some (s2l "decky-lsfg-vk"))
    (hp1 : startsWith (s2l "# per_game_profiles =") (strip line) = false)
    (hp2 : startsWith (s2l "per_game_profiles =") (strip line) = false) :
    ∃ st', stepE st line = .ok st' ∧ st'.config = st.config := by
  rw [stepE, stepCore, hp1, hp2]
  simp only [Bool.or_self, Bool.false_eq_true, if_false]
  by_cases h2 : (decide (strip line = []) || startsWith (s2l "#") (strip line)) = true
  · rw [if_pos h2]; exact ⟨st, rfl, rfl⟩
  · rw [if_neg h2]
    by_cases h3 : (startsWith (s2l "[") (strip line) && endsWithChar ']' (strip line)) = true
    · rw [if_pos h3]
      by_cases h4 : strip line = s2l "[global]"
      · rw [if_pos h4]; exact ⟨_, rfl, rfl⟩
      · rw [if_neg h4]
        by_cases h5 : strip line = s2l "[[game]]"
        · rw [if_pos h5]; exact ⟨_, rfl, rfl⟩
        · rw [if_neg h5]; exact ⟨_, rfl, rfl⟩
    · rw [if_neg h3]
      by_cases h6 : containsChar '=' (strip line) = true
      · rw [if_pos h6]
        cases hsp : splitOnce '=' (strip line) with
        | none => exact ⟨st, rfl, rfl⟩
        | some kv =>
          obtain ⟨k, v⟩ := kv
          exact kvDispatch_config_preserved st (strip k) (stripQuotes (strip v)) hg hgm hexe
      · rw [if_neg h6]; exact ⟨st, rfl, rfl⟩

/-- The concrete parser state used by the claim C10 witness: inside a
game section whose exe is the identifier other. -/
def c10State : PSt := { pInit with in_game := true, current_game_exe := some (s2l "other") }

/-- Witness for claim C10: a multiplier line inside a game section whose
exe is the identifier other leaves the configuration untouched. -/
theorem claim_C10_witness :
    ∃ st', stepE c10State (s2l "multiplier = 5") = .ok st' ∧ st'.config = c10State.config :=
  claim_C10_gating c10State (s2l "multiplier = 5") rfl rfl (by decide) (by decide) (by decide)

/-! ## Claim theorems: merge, defaults, validate -/

/-- Claim C3: merging the structured-file configuration with the script
values takes every persisted field (dll, multiplier, flow_scale,
performance_mode, hdr_mode, experimental_present_mode, per_game_profiles)
from the file data for every script mapping, takes each script-only field
from the script values exactly when present there and from the file data
otherwise, and in particular a script exporting DXVK_FRAME_RATE=90 over a
file that nowhere mentions dxvk_frame_rate yields 90. -/
theorem claim_C3_merge (T : ConfigurationData) (S : ScriptValues) :
    (merge_config_with_script T S).dll = T.dll ∧
    (merge_config_with_script T S).multiplier = T.multiplier ∧
    (merge_config_with_script T S).flow_scale = T.flow_scale ∧
    (merge_config_with_script T S).performance_mode = T.performance_mode ∧
    (merge_config_with_script T S).hdr_mode = T.hdr_mode ∧
    (merge_config_with_script T S).experimental_present_mode = T.experimental_present_mode ∧
    (merge_config_with_script T S).per_game_profiles = T.per_game_profiles ∧
    (merge_config_with_script T S).dxvk_frame_rate = S.dxvk_frame_rate.getD T.dxvk_frame_rate ∧
    (merge_config_with_script T S).enable_wow64 = S.enable_wow64.getD T.enable_wow64 ∧
    (merge_config_with_script T S).disable_steamdeck_mode
      = S.disable_steamdeck_mode.getD T.disable_steamdeck_mode ∧
    (merge_config_with_script get_defaults
        (parse_script_content (s2l "export DXVK_FRAME_RATE=90"))).dxvk_frame_rate = 90 := by
  obtain ⟨d, w, s⟩ := S
  refine ⟨rfl, rfl, rfl, rfl, rfl, rfl, rfl, ?_, ?_, ?_, by decide⟩
  · cases d <;> rfl
  · cases w <;> rfl
  · cases s <;> rfl

/-- Claim C5: with no structured file and no launch script, and a DLL
detection result carrying no usable path (not detected, an empty path, or
a raised exception), get_config succeeds with the all-default
configuration whose dll is the documented fallback path. -/
theorem claim_C5_defaults (dllRes : Except Unit DllResult)
    (h : match dllRes with
         | .ok d => d.detected = false ∨ d.path = []
         | .error _ => True) :
    get_config none none dllRes =
      { success := true, config := some { get_defaults with dll := default_dll_fallback },
        message := none, error := none } ∧
    ({ get_defaults with dll := default_dll_fallback } : ConfigurationData) =
      ⟨default_dll_fallback, 1, ⟨s2l "0.8"⟩, true, false, s2l "fifo", 0, false, false, false⟩ := by
  refine ⟨?_, by decide⟩
  cases dllRes with
  | error e =>
    rw [get_config, get_defaults_with_dll_detection]
    rfl
  | ok d =>
    rw [get_config, get_defaults_with_dll_detection]
    rcases h with hdet | hpath
    · rw [hdet]
      rfl
    · by_cases hd : d.detected = true
      · rw [hd, hpath]
        simp only [ne_eq, not_true_eq_false, Bool.true_and]
        rfl
      · rw [Bool.not_eq_true] at hd
        rw [hd]
        rfl

/-- Witness for claim C5 with an undetected DLL result. -/
theorem claim_C5_witness :
    get_config none none (.ok ⟨false, []⟩) =
      { success := true, config := some { get_defaults with dll := default_dll_fallback },
        message := none, error := none } :=
  (claim_C5_defaults (.ok ⟨false, []⟩) (Or.inl rfl)).1

/-- Claim C4 counterexample: a raw mapping whose multiplier value is the
string abc makes validate_config raise (int of a non-numeric string),
so the operation does fail outright instead of falling back to the
default for that field. -/
theorem claim_C4_counterexample :
    validate_config [(s2l "multiplier", .s (s2l "abc"))] = .error () := by
  decide

/-- Claim C4 (amended): validate_config fills every absent field from its
schema default and always produces a fully-populated ConfigurationData
when it returns at all, but a present value whose int or float coercion
fails raises and aborts the whole call rather than degrading that one
field. -/
theorem claim_C4_validate (raw : RawConfig) (c : ConfigurationData)
    (h : validate_config raw = .ok c) :
    ((raw.lookup (s2l "dll")).isNone → c.dll = []) ∧
    ((raw.lookup (s2l "multiplier")).isNone → c.multiplier = 1) ∧
    ((raw.lookup (s2l "flow_scale")).isNone → c.flow_scale = ⟨s2l "0.8"⟩) ∧
    ((raw.lookup (s2l "performance_mode")).isNone → c.performance_mode = true) ∧
    ((raw.lookup (s2l "hdr_mode")).isNone → c.hdr_mode = false) ∧
    ((raw.lookup (s2l "experimental_present_mode")).isNone →
      c.experimental_present_mode = s2l "fifo") ∧
    ((raw.lookup (s2l "dxvk_frame_rate")).isNone → c.dxvk_frame_rate = 0) ∧
    ((raw.lookup (s2l "enable_wow64")).isNone → c.enable_wow64 = false) ∧
    ((raw.lookup (s2l "disable_steamdeck_mode")).isNone → c.disable_steamdeck_mode = false) ∧
    ((raw.lookup (s2l "per_game_profiles")).isNone → c.per_game_profiles = false) := by
  rw [validate_config] at h
  cases hm : pyToInt (rawGet raw (s2l "multiplier") (.i 1)) with
  | error e => rw [hm] at h; exact absurd h (by simp)
  | ok m =>
  rw [hm] at h
  cases hf : pyToFloat (rawGet raw (s2l "flow_scale") (.f ⟨s2l "0.8"⟩)) with
  | error e => rw [hf] at h; exact absurd h (by simp)
  | ok fs =>
  rw [hf] at h
  cases hx : pyToInt (rawGet raw (s2l "dxvk_frame_rate") (.i 0)) with
  | error e => rw [hx] at h; exact absurd h (by simp)
  | ok dx =>
  rw [hx] at h
  simp only [Except.ok.injEq] at h
  subst h
  simp only [rawGet] at hm hf hx ⊢
  refine ⟨?_, ?_, ?_, ?_, ?_, ?_, ?_, ?_, ?_, ?_⟩
  · intro hab
    rw [Option.isNone_iff_eq_none.mp hab]
    rfl
  · intro hab
    rw [Option.isNone_iff_eq_none.mp hab] at hm
    rcases Except.ok.injEq .. ▸ hm with rfl
    rfl
  · intro hab
    rw [Option.isNone_iff_eq_none.mp hab] at hf
    rcases Except.ok.injEq .. ▸ hf with rfl
    rfl
  · intro hab
    rw [Option.isNone_iff_eq_none.mp hab]
    rfl
  · intro hab
    rw [Option.isNone_iff_eq_none.mp hab]
    rfl
  · intro hab
    rw [Option.isNone_iff_eq_none.mp hab]
    rfl
  · intro hab
    rw [Option.isNone_iff_eq_none.mp hab] at hx
    rcases Except.ok.injEq .. ▸ hx with rfl
    rfl
  · intro hab
    rw [Option.isNone_iff_eq_none.mp hab]
    rfl
  · intro hab
    rw [Option.isNone_iff_eq_none.mp hab]
    rfl
  · intro hab
    rw [Option.isNone_iff_eq_none.mp hab]
    rfl

/-- Witness for claim C4: a raw mapping carrying only a multiplier leaves
every other field at its schema default. -/
theorem claim_C4_witness :
    (validate_config [(s2l "multiplier", PyValue.i 7)]).isOk = true ∧
    ∀ c, validate_config [(s2l "multiplier", PyValue.i 7)] = .ok c → c.flow_scale = ⟨s2l "0.8"⟩ := by
  refine ⟨by decide, fun c h => ?_⟩
  exact (claim_C4_validate [(s2l "multiplier", PyValue.i 7)] c h).2.2.1 (by decide)

/-! ## Per-game codec machinery -/

/-- The last character exists and is not whitespace: the cleanliness a
profile name needs for its generated lines to strip to themselves. -/
def endsNonWS (n : Str) : Bool :=
  match n.getLast? with
  | some z => !isWS z
  | none => false

/-- Parsed image of one game entry: the five fields written per profile by
the generators, on top of schema defaults (an empty present mode is not
emitted and parses back as the default). -/
def to5 (g : ConfigurationData) : ConfigurationData :=
  { get_defaults with
      multiplier := g.multiplier
      flow_scale := g.flow_scale
      performance_mode := g.performance_mode
      hdr_mode := g.hdr_mode
      experimental_present_mode :=
        if g.experimental_present_mode = [] then s2l "fifo"
        else g.experimental_present_mode }

/-- The lines one game entry contributes to the per-game file: the flatMap
body of generate_per_game_toml_lines, which also matches the synthesized
default block. -/
def pgBlock (np : Str × ConfigurationData) : List Str :=
  [s2l "[[game]]",
   (if np.1 = defaultProfileName then
      s2l "# Default profile (uses LSFG_PROCESS=decky-lsfg-vk)"
    else s2l "# Profile for " ++ np.1),
   s2l "exe = \"" ++ (np.1 ++ s2l "\""),
   []]
  ++ profileFieldLines np.2

/-- The per-game parser state while inside a game section. -/
def stGame (g : ConfigurationData) (acc : List (Str × ConfigurationData))
    (n : Str) (c : ConfigurationData) : PGSt :=
  { in_global := false, in_game := true, current_game_exe := some n,
    current_game_config := some c, global_config := g, game_profiles := acc }

/-- The state of the per-game loop after a run of game blocks. -/
def runStateFrom (st : PGSt) : List (Str × ConfigurationData) → PGSt
  | [] => st
  | (m, P) :: rest => runStateFrom (stGame st.global_config (pgFlush st) m (to5 P)) rest

/-- The profile map accumulated by flushing a run of game entries in
order. -/
def flushProfiles (acc : List (Str × ConfigurationData)) :
    List (Str × ConfigurationData) → List (Str × ConfigurationData)
  | [] => acc
  | (m, P) :: rest =>
    flushProfiles (if m ≠ [] then dictInsert m (to5 P) acc else acc) rest

/-- The effective entry list of the per-game generator: the synthesized
default entry when absent, then the given profiles. -/
def extProfiles (config : ConfigurationData)
    (ps : List (Str × ConfigurationData)) : List (Str × ConfigurationData) :=
  (if (ps.lookup defaultProfileName).isSome then [] else [(defaultProfileName, config)]) ++ ps

theorem endsNonWS_ne_nil {n : Str} (h : endsNonWS n = true) : n ≠ [] := by
  intro he
  rw [he] at h
  exact absurd h (by decide)

theorem endsNonWS_concat {n : Str} (h : endsNonWS n = true) :
    ∃ pre z, n = pre ++ [z] ∧ isWS z = false := by
  have hne : n ≠ [] := endsNonWS_ne_nil h
  cases hL : n.getLast? with
  | none =>
    rw [List.getLast?_eq_getLast n hne] at hL
    exact absurd hL (by simp)
  | some z =>
    have hz : isWS z = false := by
      rw [endsNonWS, hL] at h
      simpa using h
    have hcat := List.dropLast_append_getLast hne
    have hzl : n.getLast hne = z := by
      have := List.getLast?_eq_getLast n hne
      rw [hL] at this
      exact (Option.some_injective _ this).symm
    exact ⟨n.dropLast, z, by rw [← hzl, hcat], hz⟩

/-- Any comment line other than the per_game_profiles special case is
skipped by the per-game loop. -/
theorem pgStep_comment (st : PGSt) (l : Str)
    (h0 : strip l = l)
    (h1 : startsWith (s2l "#") l = true)
    (h2 : startsWith (s2l "# per_game_profiles =") l = false)
    (h3 : startsWith (s2l "per_game_profiles =") l = false) :
    pgStep st l = st := by
  rw [pgStep, h0, pgStepCore, h2, h3, h1]
  simp

/-- The per-profile comment line of the per-game generator is skipped,
whatever the profile name. -/
theorem pgStep_profile_cmt (st : PGSt) (name : Str)
    (hlast : ∃ pre z, name = pre ++ [z] ∧ isWS z = false) :
    pgStep st (s2l "# Profile for " ++ name) = st := by
  rcases hlast with ⟨pre, z, hpz, hz⟩
  apply pgStep_comment
  · apply strip_eq_self_of
    · intro x hx
      rw [show s2l "# Profile for " ++ name = '#' :: (s2l " Profile for " ++ name) from rfl] at hx
      rcases Option.some_injective _ hx.symm with rfl
      decide
    · intro x hx
      rw [hpz, show s2l "# Profile for " ++ (pre ++ [z]) = (s2l "# Profile for " ++ pre) ++ [z]
        from by rw [List.append_assoc], List.getLast?_concat] at hx
      rcases Option.some_injective _ hx.symm with rfl
      exact hz
  · rw [show s2l "# Profile for " ++ name = '#' :: (s2l " Profile for " ++ name) from rfl,
      show s2l "#" = ['#'] from rfl]
    simp [startsWith]
  · rw [show s2l "# Profile for " ++ name
      = '#' :: ' ' :: 'P' :: (s2l "rofile for " ++ name) from rfl,
      show s2l "# per_game_profiles ="
      = '#' :: ' ' :: 'p' :: s2l "er_game_profiles =" from rfl]
    simp +decide [startsWith]
  · rw [show s2l "# Profile for " ++ name = '#' :: (s2l " Profile for " ++ name) from rfl,
      show s2l "per_game_profiles =" = 'p' :: s2l "er_game_profiles =" from rfl]
    simp +decide [startsWith]

/-- The comment line heading a game block: the default-profile comment for
the reserved name, the per-profile comment otherwise. -/
theorem pgStep_block_cmt (st : PGSt) (name : Str) (hends : endsNonWS name = true) :
    pgStep st (if name = defaultProfileName then
        s2l "# Default profile (uses LSFG_PROCESS=decky-lsfg-vk)"
      else s2l "# Profile for " ++ name) = st := by
  by_cases hd : name = defaultProfileName
  · rw [if_pos hd]
    exact pgStep_comment st _ (by decide) (by decide) (by decide) (by decide)
  · rw [if_neg hd]
    exact pgStep_profile_cmt st name (endsNonWS_concat hends)

/-- Generic key = value line for the per-game loop, mirroring the
single-profile version. -/
theorem pg_kv_of_first (st : PGSt) (keyPre rawVal : Str) (c : Char) (t : Str)
    (hfirst : keyPre = c :: t)
    (hch : (('#' : Char) = c) = False) (hcb : (('[' : Char) = c) = False)
    (hcp : (('p' : Char) = c) = False) (hcw : isWS c = false)
    (hkey : '=' ∉ keyPre)
    (hlast : ∃ pre z, keyPre ++ '=' :: rawVal = pre ++ [z] ∧ isWS z = false) :
    pgStep st (keyPre ++ '=' :: rawVal) =
      pgKvDispatch st (strip keyPre) (stripQuotes (strip rawVal)) := by
  have hcons : keyPre ++ '=' :: rawVal = c :: (t ++ '=' :: rawVal) := by
    rw [hfirst, List.cons_append]
  have hstrip : strip (keyPre ++ '=' :: rawVal) = keyPre ++ '=' :: rawVal := by
    apply strip_eq_self_of
    · intro x hx; rw [hcons] at hx
      rcases Option.some_injective _ hx.symm with rfl; exact hcw
    · intro x hx
      rcases hlast with ⟨pre, z, hz, hzw⟩
      rw [hz, List.getLast?_concat] at hx
      rcases Option.some_injective _ hx.symm with rfl; exact hzw
  have hp1 : startsWith (s2l "# per_game_profiles =") (keyPre ++ '=' :: rawVal) = false := by
    rw [hcons, show s2l "# per_game_profiles =" = '#' :: s2l " per_game_profiles =" from rfl]
    simp only [startsWith, hch, decide_False, Bool.false_and]
  have hp2 : startsWith (s2l "per_game_profiles =") (keyPre ++ '=' :: rawVal) = false := by
    rw [hcons, show s2l "per_game_profiles =" = 'p' :: s2l "er_game_profiles =" from rfl]
    simp only [startsWith, hcp, decide_False, Bool.false_and]
  have hsh : startsWith (s2l "#") (keyPre ++ '=' :: rawVal) = false := by
    rw [hcons, show s2l "#" = ['#'] from rfl]
    simp only [startsWith, hch, decide_False, Bool.false_and]
  have hbr : startsWith (s2l "[") (keyPre ++ '=' :: rawVal) = false := by
    rw [hcons, show s2l "[" = ['['] from rfl]
    simp only [startsWith, hcb, decide_False, Bool.false_and]
  have hne : decide ((keyPre ++ '=' :: rawVal) = []) = false := by
    rw [hcons]; simp
  have hcc : containsChar '=' (keyPre ++ '=' :: rawVal) = true := by
    rw [containsChar_append]
    simp [containsChar]
  rw [pgStep, hstrip, pgStepCore, hp1, hp2, hne, hsh, hbr, hcc, splitOnce_append rawVal hkey]
  simp

/-! Concrete-line step lemmas for the per-game loop -/

theorem pgStep_nil (st : PGSt) : pgStep st [] = st := by
  simp +decide [pgStep, pgStepCore, strip, stripL, stripR]

theorem pgStep_version (st : PGSt) : pgStep st (s2l "version = 1") = st := by
  simp +decide [pgStep, pgStepCore, pgKvDispatch, strip, stripL, stripR, s2l, startsWith,
    splitOnce, containsChar, stripQuotes, endsWithChar, lower, lowerChar, boolTruthWords,
    pyInt, parseNat]
  intro _ _
  cases st.current_game_config <;> rfl

theorem pgStep_global_hdr (st : PGSt) :
    pgStep st (s2l "[global]") =
      { in_global := true, in_game := false, current_game_exe := none,
        current_game_config := none, global_config := st.global_config,
        game_profiles := pgFlush st } := by
  simp +decide [pgStep, pgStepCore, strip, stripL, stripR, s2l, startsWith, endsWithChar]

theorem pgStep_game_hdr (st : PGSt) :
    pgStep st (s2l "[[game]]") =
      { in_global := false, in_game := true, current_game_exe := none,
        current_game_config := some get_defaults, global_config := st.global_config,
        game_profiles := pgFlush st } := by
  simp +decide [pgStep, pgStepCore, strip, stripL, stripR, s2l, startsWith, endsWithChar]

theorem pgStep_pgp_cmt (st : PGSt) (b : Bool) :
    pgStep st (s2l "# per_game_profiles = " ++ boolStr b) =
      { st with global_config := { st.global_config with per_game_profiles := b } } := by
  cases b <;>
    simp +decide [pgStep, pgStepCore, strip, stripL, stripR, s2l, startsWith, boolStr,
      lower, lowerChar, boolTruthWords]

theorem pgStep_dll (st : PGSt) (s : Str) (hg : st.in_global = true) :
    pgStep st (s2l "dll = \"" ++ (s ++ s2l "\"")) =
      { st with global_config := { st.global_config with dll := s } } := by
  rw [show s2l "dll = \"" ++ (s ++ s2l "\"") = s2l "dll " ++ '=' :: (s2l " \"" ++ (s ++ ['"']))
    from rfl]
  rw [pg_kv_of_first st (s2l "dll ") (s2l " \"" ++ (s ++ ['"'])) 'd' (s2l "ll ") rfl
    (by decide) (by decide) (by decide) (by decide) (by decide)
    ⟨s2l "dll = \"" ++ s, '"', by rw [show s2l "dll " ++ '=' :: (s2l " \"" ++ (s ++ ['"']))
      = s2l "dll = \"" ++ (s ++ ['"']) from rfl, ← List.append_assoc], by decide⟩]
  rw [show strip (s2l "dll ") = s2l "dll" from by decide, val_quoted]
  rw [pgKvDispatch, hg]
  simp

theorem pgStep_exe (st : PGSt) (name : Str) (cur : ConfigurationData)
    (hg : st.in_global = false) (hgm : st.in_game = true)
    (hcgc : st.current_game_config = some cur) :
    pgStep st (s2l "exe = \"" ++ (name ++ s2l "\"")) =
      { st with current_game_exe := some name } := by
  rw [show s2l "exe = \"" ++ (name ++ s2l "\"") = s2l "exe " ++ '=' :: (s2l " \"" ++ (name ++ ['"']))
    from rfl]
  rw [pg_kv_of_first st (s2l "exe ") (s2l " \"" ++ (name ++ ['"'])) 'e' (s2l "xe ") rfl
    (by decide) (by decide) (by decide) (by decide) (by decide)
    ⟨s2l "exe = \"" ++ name, '"', by rw [show s2l "exe " ++ '=' :: (s2l " \"" ++ (name ++ ['"']))
      = s2l "exe = \"" ++ (name ++ ['"']) from rfl, ← List.append_assoc], by decide⟩]
  rw [show strip (s2l "exe ") = s2l "exe" from by decide, val_quoted]
  rw [pgKvDispatch, hg, hgm, hcgc]
  simp

theorem pgStep_multiplier (st : PGSt) (n : Int) (cur : ConfigurationData)
    (hg : st.in_global = false) (hgm : st.in_game = true)
    (hcgc : st.current_game_config = some cur) :
    pgStep st (s2l "multiplier = " ++ intToChars n) =
      { st with current_game_config := some { cur with multiplier := n } } := by
  rcases intToChars_first n with ⟨c, t, hct, hcd⟩
  rcases intToChars_concat n with ⟨pre, z, hpz, hzd⟩
  rw [show s2l "multiplier = " ++ intToChars n
    = s2l "multiplier " ++ '=' :: (' ' :: intToChars n) from rfl]
  rw [pg_kv_of_first st (s2l "multiplier ") (' ' :: intToChars n) 'm' (s2l "ultiplier ") rfl
    (by decide) (by decide) (by decide) (by decide) (by decide)
    ⟨s2l "multiplier = " ++ pre, z, by
      rw [show s2l "multiplier " ++ '=' :: (' ' :: intToChars n)
        = s2l "multiplier = " ++ intToChars n from rfl, hpz, ← List.append_assoc],
      isWS_eq_false_of_digit hzd⟩]
  rw [val_unquoted (intToChars n) c z t pre hct hpz
    (by rcases hcd with hd | hm
        · exact isWS_eq_false_of_digit hd
        · subst hm; decide)
    (isWS_eq_false_of_digit hzd)
    (by rcases hcd with hd | hm
        · exact digit_ne_quote2 hd
        · subst hm; decide)
    (by rcases hcd with hd | hm
        · exact digit_ne_quote1 hd
        · subst hm; decide)]
  rw [show strip (s2l "multiplier ") = s2l "multiplier" from by decide]
  rw [pgKvDispatch, hg, hgm, hcgc]
  simp +decide [pyInt_intToChars n]

theorem pgStep_flow (st : PGSt) (f : PyFloat) (cur : ConfigurationData)
    (hf : floatLit f.lit = true)
    (hg : st.in_global = false) (hgm : st.in_game = true)
    (hcgc : st.current_game_config = some cur) :
    pgStep st (s2l "flow_scale = " ++ f.lit) =
      { st with current_game_config := some { cur with flow_scale := f } } := by
  rcases floatLit_parts hf with ⟨hne, -, hhd, hlst⟩
  rcases List.exists_cons_of_ne_nil (by intro he; rw [he] at hne; exact absurd hne (by decide) :
    f.lit ≠ []) with ⟨c, t, hct⟩
  have hcd : (c.isDigit || c = '-') = true := by rw [hct] at hhd; simpa using hhd
  have hlitne : f.lit ≠ [] := by intro he; rw [he] at hne; exact absurd hne (by decide)
  have hconcat : f.lit = f.lit.dropLast ++ [f.lit.getLast hlitne] :=
    (List.dropLast_append_getLast hlitne).symm
  have hz : (f.lit.getLast hlitne).isDigit = true := by
    have := List.getLast?_eq_getLast f.lit hlitne
    rw [this] at hlst; simpa using hlst
  rw [show s2l "flow_scale = " ++ f.lit = s2l "flow_scale " ++ '=' :: (' ' :: f.lit) from rfl]
  rw [pg_kv_of_first st (s2l "flow_scale ") (' ' :: f.lit) 'f' (s2l "low_scale ") rfl
    (by decide) (by decide) (by decide) (by decide) (by decide)
    ⟨s2l "flow_scale = " ++ f.lit.dropLast, f.lit.getLast hlitne, by
      rw [show s2l "flow_scale " ++ '=' :: (' ' :: f.lit) = s2l "flow_scale = " ++ f.lit from rfl]
      conv_lhs => rw [hconcat]
      rw [← List.append_assoc], isWS_eq_false_of_digit hz⟩]
  rw [val_unquoted f.lit c (f.lit.getLast hlitne) t f.lit.dropLast hct hconcat
    (by rcases Bool.or_eq_true_iff.mp hcd with hd | hm
        · exact isWS_eq_false_of_digit hd
        · rw [decide_eq_true_eq] at hm; subst hm; decide)
    (isWS_eq_false_of_digit hz)
    (by rcases Bool.or_eq_true_iff.mp hcd with hd | hm
        · exact digit_ne_quote2 hd
        · rw [decide_eq_true_eq] at hm; subst hm; decide)
    (by rcases Bool.or_eq_true_iff.mp hcd with hd | hm
        · exact digit_ne_quote1 hd
        · rw [decide_eq_true_eq] at hm; subst hm; decide)]
  rw [show strip (s2l "flow_scale ") = s2l "flow_scale" from by decide]
  rw [pgKvDispatch, hg, hgm, hcgc]
  rw [pyFloat_of_lit hf]
  simp +decide

theorem pgStep_perf (st : PGSt) (b : Bool) (cur : ConfigurationData)
    (hg : st.in_global = false) (hgm : st.in_game = true)
    (hcgc : st.current_game_config = some cur) :
    pgStep st (s2l "performance_mode = " ++ boolStr b) =
      { st with current_game_config := some { cur with performance_mode := b } } := by
  cases b <;>
    simp +decide [pgStep, pgStepCore, pgKvDispatch, strip, stripL, stripR, s2l, startsWith,
      splitOnce, containsChar, stripQuotes, endsWithChar, lower, lowerChar, boolStr,
      hg, hgm, hcgc]

theorem pgStep_hdr (st : PGSt) (b : Bool) (cur : ConfigurationData)
    (hg : st.in_global = false) (hgm : st.in_game = true)
    (hcgc : st.current_game_config = some cur) :
    pgStep st (s2l "hdr_mode = " ++ boolStr b) =
      { st with current_game_config := some { cur with hdr_mode := b } } := by
  cases b <;>
    simp +decide [pgStep, pgStepCore, pgKvDispatch, strip, stripL, stripR, s2l, startsWith,
      splitOnce, containsChar, stripQuotes, endsWithChar, lower, lowerChar, boolStr,
      hg, hgm, hcgc]

theorem pgStep_epm (st : PGSt) (s : Str) (cur : ConfigurationData)
    (hg : st.in_global = false) (hgm : st.in_game = true)
    (hcgc : st.current_game_config = some cur) :
    pgStep st (s2l "experimental_present_mode = \"" ++ (s ++ s2l "\"")) =
      { st with current_game_config := some { cur with experimental_present_mode := s } } := by
  rw [show s2l "experimental_present_mode = \"" ++ (s ++ s2l "\"")
    = s2l "experimental_present_mode " ++ '=' :: (s2l " \"" ++ (s ++ ['"'])) from rfl]
  rw [pg_kv_of_first st (s2l "experimental_present_mode ") (s2l " \"" ++ (s ++ ['"'])) 'e'
    (s2l "xperimental_present_mode ") rfl
    (by decide) (by decide) (by decide) (by decide) (by decide)
    ⟨s2l "experimental_present_mode = \"" ++ s, '"', by
      rw [show s2l "experimental_present_mode " ++ '=' :: (s2l " \"" ++ (s ++ ['"']))
        = s2l "experimental_present_mode = \"" ++ (s ++ ['"']) from rfl, ← List.append_assoc],
      by decide⟩]
  rw [show strip (s2l "experimental_present_mode ") = s2l "experimental_present_mode" from by
    decide, val_quoted]
  rw [pgKvDispatch, hg, hgm, hcgc]
  simp +decide

/-- Chaining the per-game loop over one line. -/
theorem pg_chain {st st' : PGSt} {l : Str} {ls : List Str} {r : PGSt}
    (h : pgStep st l = st') (h2 : List.foldl pgStep st' ls = r) :
    List.foldl pgStep st (l :: ls) = r := by
  rw [List.foldl_cons, h]; exact h2

/-- The per-game loop over the five generated field lines of one game
entry, positioned inside a game section with an accumulator. -/
theorem pg_profileFieldLines (st : PGSt) (cur gc : ConfigurationData)
    (hfs : floatLit gc.flow_scale.lit = true)
    (hg : st.in_global = false) (hgm : st.in_game = true)
    (hcgc : st.current_game_config = some cur) (ls : List Str) :
    List.foldl pgStep st (profileFieldLines gc ++ ls) =
      List.foldl pgStep
        { st with current_game_config := some { cur with
            multiplier := gc.multiplier,
            flow_scale := gc.flow_scale,
            performance_mode := gc.performance_mode,
            hdr_mode := gc.hdr_mode,
            experimental_present_mode :=
              if gc.experimental_present_mode = [] then cur.experimental_present_mode
              else gc.experimental_present_mode } } ls := by
  by_cases hepm : gc.experimental_present_mode = []
  · simp only [profileFieldLines, hepm, if_pos, ite_not, if_neg, List.cons_append,
      List.nil_append, List.append_assoc]
    refine pg_chain (pgStep_comment _ _ (by decide) (by decide) (by decide) (by decide)) ?_
    refine pg_chain (pgStep_multiplier _ gc.multiplier cur hg hgm hcgc) ?_
    refine pg_chain (pgStep_nil _) ?_
    refine pg_chain (pgStep_comment _ _ (by decide) (by decide) (by decide) (by decide)) ?_
    refine pg_chain (pgStep_flow _ gc.flow_scale _ hfs hg hgm rfl) ?_
    refine pg_chain (pgStep_nil _) ?_
    refine pg_chain (pgStep_comment _ _ (by decide) (by decide) (by decide) (by decide)) ?_
    refine pg_chain (pgStep_perf _ gc.performance_mode _ hg hgm rfl) ?_
    refine pg_chain (pgStep_nil _) ?_
    refine pg_chain (pgStep_comment _ _ (by decide) (by decide) (by decide) (by decide)) ?_
    refine pg_chain (pgStep_hdr _ gc.hdr_mode _ hg hgm rfl) ?_
    refine pg_chain (pgStep_nil _) ?_
    refine pg_chain (pgStep_comment _ _ (by decide) (by decide) (by decide) (by decide)) ?_
    refine pg_chain (pgStep_nil _) ?_
    rfl
  · simp only [profileFieldLines, hepm, ite_not, if_neg, List.cons_append,
      List.nil_append, List.append_assoc]
    refine pg_chain (pgStep_comment _ _ (by decide) (by decide) (by decide) (by decide)) ?_
    refine pg_chain (pgStep_multiplier _ gc.multiplier cur hg hgm hcgc) ?_
    refine pg_chain (pgStep_nil _) ?_
    refine pg_chain (pgStep_comment _ _ (by decide) (by decide) (by decide) (by decide)) ?_
    refine pg_chain (pgStep_flow _ gc.flow_scale _ hfs hg hgm rfl) ?_
    refine pg_chain (pgStep_nil _) ?_
    refine pg_chain (pgStep_comment _ _ (by decide) (by decide) (by decide) (by decide)) ?_
    refine pg_chain (pgStep_perf _ gc.performance_mode _ hg hgm rfl) ?_
    refine pg_chain (pgStep_nil _) ?_
    refine pg_chain (pgStep_comment _ _ (by decide) (by decide) (by decide) (by decide)) ?_
    refine pg_chain (pgStep_hdr _ gc.hdr_mode _ hg hgm rfl) ?_
    refine pg_chain (pgStep_nil _) ?_
    refine pg_chain (pgStep_comment _ _ (by decide) (by decide) (by decide) (by decide)) ?_
    refine pg_chain (pgStep_epm _ gc.experimental_present_mode _ hg hgm rfl) ?_
    refine pg_chain (pgStep_nil _) ?_
    rfl

/-- One whole game block of the per-game file: the previous game entry is
flushed at the header, then the block installs its own entry as the
current one. -/
theorem pg_gameBlock (st : PGSt) (np : Str × ConfigurationData) (ls : List Str)
    (hends : endsNonWS np.1 = true)
    (hfs : floatLit np.2.flow_scale.lit = true) :
    List.foldl pgStep st (pgBlock np ++ ls) =
      List.foldl pgStep (stGame st.global_config (pgFlush st) np.1 (to5 np.2)) ls := by
  obtain ⟨name, P⟩ := np
  rw [pgBlock]
  simp only [List.cons_append, List.nil_append, List.append_assoc]
  refine pg_chain (pgStep_game_hdr st) ?_
  refine pg_chain (pgStep_block_cmt _ name hends) ?_
  refine pg_chain (pgStep_exe _ name get_defaults rfl rfl rfl) ?_
  refine pg_chain (pgStep_nil _) ?_
  refine Eq.trans (pg_profileFieldLines _ get_defaults P hfs rfl rfl rfl ls) ?_
  rfl

/-- The per-game generator's lines, regrouped as the global prefix
followed by the effective game blocks. -/
theorem gen_pg_lines_eq (G : ConfigurationData) (ps : List (Str × ConfigurationData)) :
    generate_per_game_toml_lines G ps =
      ([s2l "version = 1", [], s2l "[global]", s2l "# Global settings"]
       ++ (if G.dll ≠ [] then
             [s2l "# specify where Lossless.dll is stored",
              s2l "dll = \"" ++ (G.dll ++ s2l "\"")]
           else [])
       ++ [s2l "# Enable per-game profiles",
           s2l "# per_game_profiles = " ++ boolStr G.per_game_profiles,
           []])
      ++ (extProfiles G ps).flatMap pgBlock := by
  rw [generate_per_game_toml_lines, extProfiles, List.flatMap_append]
  by_cases h : (ps.lookup defaultProfileName).isSome
  · rw [if_pos h, if_pos h]
    simp only [List.nil_append, List.append_assoc]
    congr 1
  · rw [if_neg h, if_neg h]
    simp only [List.flatMap_cons, List.flatMap_nil, List.append_nil, pgBlock,
      if_pos rfl, List.cons_append, List.nil_append, List.append_assoc]
    rfl

theorem pgBlock_no_nl (np : Str × ConfigurationData)
    (hn : '\n' ∉ np.1) (hepm : '\n' ∉ np.2.experimental_present_mode)
    (hfs : floatLit np.2.flow_scale.lit = true) :
    ∀ l ∈ pgBlock np, '\n' ∉ l := by
  intro l hl
  rw [pgBlock] at hl
  simp only [List.cons_append, List.nil_append, List.mem_cons, List.mem_append] at hl
  rcases hl with rfl | rfl | rfl | rfl | hl
  · decide
  · by_cases hd : np.1 = defaultProfileName
    · rw [if_pos hd]; decide
    · rw [if_neg hd]; exact no_nl_append (by decide) hn
  · exact no_nl_append (by decide) (no_nl_append hn (by decide))
  · exact List.not_mem_nil '\n'
  · exact profileFieldLines_no_nl np.2 hepm hfs l hl

theorem generate_per_game_lines_no_nl (G : ConfigurationData)
    (ps : List (Str × ConfigurationData))
    (hGdll : '\n' ∉ G.dll) (hGepm : '\n' ∉ G.experimental_present_mode)
    (hGfs : floatLit G.flow_scale.lit = true)
    (hps : ∀ p ∈ ps, '\n' ∉ p.1 ∧ '\n' ∉ p.2.experimental_present_mode ∧
      floatLit p.2.flow_scale.lit = true) :
    ∀ l ∈ generate_per_game_toml_lines G ps, '\n' ∉ l := by
  intro l hl
  rw [gen_pg_lines_eq] at hl
  simp only [List.cons_append, List.nil_append, List.append_assoc, List.mem_cons,
    List.mem_append] at hl
  rcases hl with rfl | rfl | rfl | rfl | hl
  · decide
  · exact List.not_mem_nil '\n'
  · decide
  · decide
  rcases hl with hl | hl
  · by_cases hd : G.dll ≠ []
    · rw [if_pos hd] at hl
      simp only [List.mem_cons, List.not_mem_nil, or_false] at hl
      rcases hl with rfl | rfl
      · decide
      · exact no_nl_append (by decide) (no_nl_append hGdll (by decide))
    · rw [if_neg hd] at hl
      exact absurd hl (List.not_mem_nil l)
  rcases hl with rfl | rfl | rfl | hl
  · decide
  · exact no_nl_append (by decide) (boolStr_no_nl G.per_game_profiles)
  · exact List.not_mem_nil '\n'
  · rw [List.mem_flatMap] at hl
    rcases hl with ⟨np, hnp, hlnp⟩
    rw [extProfiles, List.mem_append] at hnp
    rcases hnp with hnp | hnp
    · by_cases hd : (ps.lookup defaultProfileName).isSome
      · rw [if_pos hd] at hnp
        exact absurd hnp (List.not_mem_nil np)
      · rw [if_neg hd] at hnp
        rcases List.mem_singleton.mp hnp with rfl
        exact pgBlock_no_nl (defaultProfileName, G)
          (show '\n' ∉ defaultProfileName from by decide) hGepm hGfs l hlnp
    · exact pgBlock_no_nl np (hps np hnp).1 (hps np hnp).2.1 (hps np hnp).2.2 l hlnp

theorem runStateFrom_global :
    ∀ (ps : List (Str × ConfigurationData)) (st : PGSt),
      (runStateFrom st ps).global_config = st.global_config := by
  intro ps
  induction ps with
  | nil => intro st; rfl
  | cons np rest ih =>
    intro st
    obtain ⟨m, P⟩ := np
    rw [runStateFrom, ih]
    rfl

/-- The flush of a freshly completed game-section state. -/
theorem pgFlush_stGame (g : ConfigurationData) (acc : List (Str × ConfigurationData))
    (n : Str) (c : ConfigurationData) :
    pgFlush (stGame g acc n c) = if n ≠ [] then dictInsert n c acc else acc := by
  rw [pgFlush, stGame]
  simp

theorem pgFlush_runStateFrom :
    ∀ (ps : List (Str × ConfigurationData)) (st : PGSt),
      pgFlush (runStateFrom st ps) = flushProfiles (pgFlush st) ps := by
  intro ps
  induction ps with
  | nil => intro st; rfl
  | cons np rest ih =>
    intro st
    obtain ⟨m, P⟩ := np
    rw [runStateFrom, flushProfiles, ih, pgFlush_stGame]

/-- The whole run over the effective game blocks of the per-game file. -/
theorem pg_run :
    ∀ (ps : List (Str × ConfigurationData)),
      (∀ p ∈ ps, endsNonWS p.1 = true ∧ floatLit p.2.flow_scale.lit = true) →
      ∀ st : PGSt, List.foldl pgStep st (ps.flatMap pgBlock) = runStateFrom st ps := by
  intro ps
  induction ps with
  | nil => intro _ st; rfl
  | cons np rest ih =>
    intro hps st
    obtain ⟨hends, hfs⟩ := hps np (List.mem_cons_self np rest)
    rw [List.flatMap_cons, pg_gameBlock st np _ hends hfs,
      ih (fun p hp => hps p (List.mem_cons_of_mem np hp))]
    obtain ⟨m, P⟩ := np
    rfl

/-! Association-list toolkit for dict insertion order -/

theorem lookup_eq_none_iff {α : Type} (k : Str) (l : List (Str × α)) :
    l.lookup k = none ↔ ∀ p ∈ l, p.1 ≠ k := by
  induction l with
  | nil => simp
  | cons p t ih =>
    obtain ⟨a, v⟩ := p
    cases hak : (k == a) with
    | true =>
      rcases eq_of_beq hak with rfl
      refine ⟨fun h => ?_, fun h => ?_⟩
      · simp only [List.lookup, beq_self_eq_true] at h
        exact Option.noConfusion h
      · exact absurd rfl (h (k, v) (List.mem_cons_self (k, v) t))
    | false =>
      have hak2 : ¬(a, v).1 = k := by
        intro he
        rw [show (a, v).1 = a from rfl] at he
        rw [he, beq_self_eq_true] at hak
        exact absurd hak (by decide)
      simp only [List.lookup, hak, List.mem_cons, forall_eq_or_imp]
      rw [ih]
      exact ⟨fun h => ⟨hak2, h⟩, fun h => h.2⟩

theorem lookup_append_of_none {α : Type} (k : Str) {a : List (Str × α)}
    (b : List (Str × α)) (h : a.lookup k = none) :
    (a ++ b).lookup k = b.lookup k := by
  induction a with
  | nil => rfl
  | cons p t ih =>
    obtain ⟨x, v⟩ := p
    cases hxk : (k == x) with
    | true =>
      simp only [List.lookup, hxk] at h
      exact Option.noConfusion h
    | false =>
      simp only [List.lookup, hxk] at h
      rw [List.cons_append]
      simp only [List.lookup, hxk]
      exact ih h

theorem lookup_cons_self {α : Type} (k : Str) (v : α) (t : List (Str × α)) :
    ((k, v) :: t).lookup k = some v := by
  simp only [List.lookup, beq_self_eq_true]

theorem dictInsert_of_none {α : Type} (k : Str) (v : α) (m : List (Str × α))
    (h : m.lookup k = none) : dictInsert k v m = m ++ [(k, v)] := by
  rw [dictInsert, h]
  rfl

theorem lookup_map_update {α : Type} (k : Str) (v : α) :
    ∀ m : List (Str × α), (m.lookup k).isSome = true →
      (m.map (fun kv => if kv.1 = k then (k, v) else kv)).lookup k = some v := by
  intro m
  induction m with
  | nil => intro h; exact Bool.noConfusion h
  | cons p t ih =>
    intro h
    obtain ⟨a, w⟩ := p
    by_cases hak : a = k
    · subst hak
      rw [List.map_cons]
      rw [show (if ((a, w) : Str × α).1 = a then ((a : Str), v) else (a, w)) = (a, v)
        from if_pos rfl]
      exact lookup_cons_self a v _
    · rw [List.map_cons]
      rw [show (if ((a, w) : Str × α).1 = k then ((k : Str), v) else (a, w)) = (a, w)
        from if_neg hak]
      have hk : (k == a) = false := by
        cases hKA : (k == a) with
        | false => rfl
        | true => exact absurd (eq_of_beq hKA).symm hak
      simp only [List.lookup, hk] at h ⊢
      exact ih h

theorem dictInsert_lookup {α : Type} (k : Str) (v : α) (m : List (Str × α)) :
    (dictInsert k v m).lookup k = some v := by
  rw [dictInsert]
  by_cases h : (m.lookup k).isSome = true
  · rw [if_pos h]
    exact lookup_map_update k v m h
  · rw [if_neg h]
    have hn : m.lookup k = none := by
      cases hm : m.lookup k with
      | none => rfl
      | some w => rw [hm] at h; exact absurd rfl h
    rw [lookup_append_of_none k _ hn]
    exact lookup_cons_self k v []

theorem lookup_map_pair {α β : Type} (f : α → β) (k : Str) :
    ∀ l : List (Str × α),
      (l.map (fun p => (p.1, f p.2))).lookup k = (l.lookup k).map f := by
  intro l
  induction l with
  | nil => rfl
  | cons p t ih =>
    obtain ⟨a, w⟩ := p
    cases hak : (k == a) with
    | true =>
      simp only [List.map_cons, List.lookup, hak]
      rfl
    | false =>
      simp only [List.map_cons, List.lookup, hak]
      exact ih

/-- Flushing a run of fresh, nonempty, pairwise-distinct profile names
appends their parsed images in order. -/
theorem flushProfiles_fresh :
    ∀ (ps : List (Str × ConfigurationData)) (acc : List (Str × ConfigurationData)),
      (∀ p ∈ ps, p.1 ≠ []) →
      (∀ p ∈ ps, acc.lookup p.1 = none) →
      ps.Pairwise (fun a b => a.1 ≠ b.1) →
      flushProfiles acc ps = acc ++ ps.map (fun p => (p.1, to5 p.2)) := by
  intro ps
  induction ps with
  | nil => intro acc _ _ _; simp [flushProfiles]
  | cons np rest ih =>
    intro acc hne hfresh hdist
    obtain ⟨m, P⟩ := np
    rw [flushProfiles, if_pos (hne (m, P) (List.mem_cons_self (m, P) rest)),
      dictInsert_of_none m (to5 P) acc (hfresh (m, P) (List.mem_cons_self (m, P) rest))]
    rw [ih (acc ++ [(m, to5 P)]) (fun p hp => hne p (List.mem_cons_of_mem (m, P) hp))
      (fun p hp => by
        rw [lookup_append_of_none p.1 _ (hfresh p (List.mem_cons_of_mem (m, P) hp))]
        rw [lookup_eq_none_iff]
        intro q hq
        rcases List.mem_singleton.mp hq with rfl
        exact (List.pairwise_cons.mp hdist).1 p hp)
      (List.pairwise_cons.mp hdist).2]
    simp [List.append_assoc]

theorem to5_epm_ne_nil (P : ConfigurationData) :
    (to5 P).experimental_present_mode ≠ [] := by
  show (if P.experimental_present_mode = [] then s2l "fifo"
        else P.experimental_present_mode) ≠ []
  by_cases h : P.experimental_present_mode = []
  · rw [if_pos h]; decide
  · rw [if_neg h]; exact h

theorem to5_to5 (P : ConfigurationData) : to5 (to5 P) = to5 P := by
  rw [show to5 (to5 P)
    = { get_defaults with
        multiplier := P.multiplier
        flow_scale := P.flow_scale
        performance_mode := P.performance_mode
        hdr_mode := P.hdr_mode
        experimental_present_mode :=
          if (to5 P).experimental_present_mode = [] then s2l "fifo"
          else (to5 P).experimental_present_mode } from rfl]
  rw [if_neg (to5_epm_ne_nil P)]
  rfl

theorem extProfiles_lookup_default (G : ConfigurationData)
    (ps : List (Str × ConfigurationData)) :
    ((extProfiles G ps).lookup defaultProfileName).isSome = true := by
  rw [extProfiles]
  by_cases h : (ps.lookup defaultProfileName).isSome
  · rw [if_pos h, List.nil_append]
    exact h
  · rw [if_neg h,
      show ([(defaultProfileName, G)] ++ ps) = (defaultProfileName, G) :: ps from rfl,
      lookup_cons_self]
    rfl

/-- Master round-trip for the per-game codec: the parsed global
configuration keeps only the dll and the per-game-profiles flag, and the
parsed profile map is, in order, the flush of the synthesized default
entry (when absent from the given profiles) followed by the given
entries. -/
theorem parse_gen_per_game (G : ConfigurationData) (ps : List (Str × ConfigurationData))
    (hGdll : '\n' ∉ G.dll) (hGepm : '\n' ∉ G.experimental_present_mode)
    (hGfs : floatLit G.flow_scale.lit = true)
    (hps : ∀ p ∈ ps, endsNonWS p.1 = true ∧ '\n' ∉ p.1 ∧
      '\n' ∉ p.2.experimental_present_mode ∧ floatLit p.2.flow_scale.lit = true) :
    parse_per_game_toml_content (generate_per_game_toml_content G ps) =
      ({ get_defaults with dll := G.dll, per_game_profiles := G.per_game_profiles },
       flushProfiles [] (extProfiles G ps)) := by
  have hnl := generate_per_game_lines_no_nl G ps hGdll hGepm hGfs
    (fun p hp => ⟨(hps p hp).2.1, (hps p hp).2.2.1, (hps p hp).2.2.2⟩)
  have hlne : generate_per_game_toml_lines G ps ≠ [] := by
    rw [gen_pg_lines_eq]
    simp
  have hsplit : splitOnChar '\n' (generate_per_game_toml_content G ps)
      = generate_per_game_toml_lines G ps :=
    splitOnChar_joinSep '\n' (generate_per_game_toml_lines G ps) hnl hlne
  have hpsE : ∀ p ∈ extProfiles G ps,
      endsNonWS p.1 = true ∧ floatLit p.2.flow_scale.lit = true := by
    intro p hp
    rw [extProfiles, List.mem_append] at hp
    rcases hp with hp | hp
    · by_cases h : (ps.lookup defaultProfileName).isSome
      · rw [if_pos h] at hp
        exact absurd hp (List.not_mem_nil p)
      · rw [if_neg h] at hp
        rcases List.mem_singleton.mp hp with rfl
        exact ⟨show endsNonWS defaultProfileName = true from by decide, hGfs⟩
    · exact ⟨(hps p hp).1, (hps p hp).2.2.2⟩
  have hrun : List.foldl pgStep pgInit (generate_per_game_toml_lines G ps)
      = runStateFrom
          { in_global := true
            in_game := false
            current_game_exe := none
            current_game_config := none
            global_config := { get_defaults with
              dll := G.dll
              per_game_profiles := G.per_game_profiles }
            game_profiles := [] } (extProfiles G ps) := by
    rw [gen_pg_lines_eq]
    by_cases hd : G.dll = []
    · rw [hd, if_neg (by simp)]
      simp only [List.cons_append, List.nil_append, List.append_assoc]
      refine pg_chain (pgStep_version _) ?_
      refine pg_chain (pgStep_nil _) ?_
      refine pg_chain (pgStep_global_hdr _) ?_
      refine pg_chain (pgStep_comment _ _ (by decide) (by decide) (by decide) (by decide)) ?_
      refine pg_chain (pgStep_comment _ _ (by decide) (by decide) (by decide) (by decide)) ?_
      refine pg_chain (pgStep_pgp_cmt _ G.per_game_profiles) ?_
      refine pg_chain (pgStep_nil _) ?_
      exact pg_run (extProfiles G ps) hpsE _
    · rw [if_pos (by simpa using hd)]
      simp only [List.cons_append, List.nil_append, List.append_assoc]
      refine pg_chain (pgStep_version _) ?_
      refine pg_chain (pgStep_nil _) ?_
      refine pg_chain (pgStep_global_hdr _) ?_
      refine pg_chain (pgStep_comment _ _ (by decide) (by decide) (by decide) (by decide)) ?_
      refine pg_chain (pgStep_comment _ _ (by decide) (by decide) (by decide) (by decide)) ?_
      refine pg_chain (pgStep_dll _ G.dll rfl) ?_
      refine pg_chain (pgStep_comment _ _ (by decide) (by decide) (by decide) (by decide)) ?_
      refine pg_chain (pgStep_pgp_cmt _ G.per_game_profiles) ?_
      refine pg_chain (pgStep_nil _) ?_
      exact pg_run (extProfiles G ps) hpsE _
  rw [show parse_per_game_toml_content (generate_per_game_toml_content G ps)
    = ((List.foldl pgStep pgInit
          (splitOnChar '\n' (generate_per_game_toml_content G ps))).global_config,
       pgFlush (List.foldl pgStep pgInit
          (splitOnChar '\n' (generate_per_game_toml_content G ps)))) from rfl]
  rw [hsplit, hrun, runStateFrom_global, pgFlush_runStateFrom]
  rfl

theorem lookup_append_left {α : Type} (k : Str) {a : List (Str × α)}
    (b : List (Str × α)) {v : α} (h : a.lookup k = some v) :
    (a ++ b).lookup k = some v := by
  induction a with
  | nil => exact Option.noConfusion h
  | cons p t ih =>
    obtain ⟨x, w⟩ := p
    cases hxk : (k == x) with
    | true =>
      simp only [List.lookup, hxk] at h
      rw [List.cons_append]
      simp only [List.lookup, hxk]
      exact h
    | false =>
      simp only [List.lookup, hxk] at h
      rw [List.cons_append]
      simp only [List.lookup, hxk]
      exact ih h

theorem to5_epm_no_nl {P : ConfigurationData}
    (h : '\n' ∉ P.experimental_present_mode) :
    '\n' ∉ (to5 P).experimental_present_mode := by
  show '\n' ∉ (if P.experimental_present_mode = [] then s2l "fifo"
               else P.experimental_present_mode)
  by_cases he : P.experimental_present_mode = []
  · rw [if_pos he]; decide
  · rw [if_neg he]; exact h

/-- The profile payload built from a full configuration by the per-game
update paths always validates, to the configuration minus the two
global-only fields. -/
theorem validate_profile_payload (config g : ConfigurationData) :
    validate_config (requiredFill (rawWithoutGlobalKeys config) g) =
      .ok ⟨[], config.multiplier, config.flow_scale, config.performance_mode,
           config.hdr_mode, config.experimental_present_mode, config.dxvk_frame_rate,
           config.enable_wow64, config.disable_steamdeck_mode, false⟩ := rfl

/-- The same payload without the required-keys fill, as built by
update_config's per-game branch. -/
theorem validate_without_global (config : ConfigurationData) :
    validate_config (rawWithoutGlobalKeys config) =
      .ok ⟨[], config.multiplier, config.flow_scale, config.performance_mode,
           config.hdr_mode, config.experimental_present_mode, config.dxvk_frame_rate,
           config.enable_wow64, config.disable_steamdeck_mode, false⟩ := rfl

/-- update_game_profile on an existing file, written through the parse of
that file: the call always succeeds and writes the per-game file for the
incoming global fields and the dict-inserted profile payload. -/
theorem update_game_profile_eq (ct C : Str) (cfg g0 : ConfigurationData)
    (m0 : List (Str × ConfigurationData))
    (hparse : parse_per_game_toml_content ct = (g0, m0)) :
    update_game_profile (some ct) C cfg
      = ({ success := true, config := some cfg,
           message := some (s2l "Game profile updated successfully"), error := none },
         some (generate_per_game_toml_content
           { g0 with dll := cfg.dll, per_game_profiles := cfg.per_game_profiles }
           (dictInsert C
             ⟨[], cfg.multiplier, cfg.flow_scale, cfg.performance_mode, cfg.hdr_mode,
              cfg.experimental_present_mode, cfg.dxvk_frame_rate, cfg.enable_wow64,
              cfg.disable_steamdeck_mode, false⟩ m0))) := by
  have h1 : update_game_profile (some ct) C cfg
      = (match validate_config (requiredFill (rawWithoutGlobalKeys cfg)
            { (parse_per_game_toml_content ct).1 with
              dll := cfg.dll
              per_game_profiles := cfg.per_game_profiles }) with
         | .error _ =>
           (({ success := false, config := none, message := none,
               error := some (s2l "Error updating game profile") } : ConfigurationResponse),
            (none : Option Str))
         | .ok prof =>
           ({ success := true, config := some cfg,
              message := some (s2l "Game profile updated successfully"), error := none },
            some (generate_per_game_toml_content
              { (parse_per_game_toml_content ct).1 with
                dll := cfg.dll
                per_game_profiles := cfg.per_game_profiles }
              (dictInsert C prof (parse_per_game_toml_content ct).2)))) := rfl
  rw [h1, hparse, validate_profile_payload]

/-- Claim C7: on the per-game write path, an active-profile scan that
returns no match, or raises, does not abort the write: the call succeeds
and the written per-game file carries the default profile re-inserted
with the incoming settings minus the two global-only fields (dll emptied,
per_game_profiles defaulted), and that entry is what the written profile
map holds under the reserved default name. -/
theorem claim_C7_detect_fallback (ct : Str) (detect : Except Unit (Option Str))
    (hdet : detect = .ok none ∨ detect = .error ())
    (dll : Str) (m : Int) (fs : PyFloat) (pm hm : Bool) (epm : Str)
    (dx : Int) (w64 dsm : Bool) :
    (update_config (some ct) detect dll m fs pm hm epm dx w64 dsm true).1.success = true ∧
    (update_config (some ct) detect dll m fs pm hm epm dx w64 dsm true).2
      = some (generate_per_game_toml_content
          (create_config_from_args dll m fs pm hm epm dx w64 dsm true)
          (dictInsert defaultProfileName
            ⟨[], m, fs, pm, hm, epm, dx, w64, dsm, false⟩
            (parse_per_game_toml_content ct).2)) ∧
    (dictInsert defaultProfileName
        (⟨[], m, fs, pm, hm, epm, dx, w64, dsm, false⟩ : ConfigurationData)
        (parse_per_game_toml_content ct).2).lookup defaultProfileName
      = some ⟨[], m, fs, pm, hm, epm, dx, w64, dsm, false⟩ := by
  rcases hdet with rfl | rfl
  · exact ⟨rfl, rfl, dictInsert_lookup _ _ _⟩
  · exact ⟨rfl, rfl, dictInsert_lookup _ _ _⟩

/-- Witness for claim C7: a no-match scan over an arbitrary existing file
still reports success. -/
theorem claim_C7_witness :
    (update_config (some (s2l "not a toml file")) (.ok none) (s2l "/tmp/Lossless.dll") 2
        ⟨s2l "0.8"⟩ true false (s2l "fifo") 0 false false true).1.success = true :=
  (claim_C7_detect_fallback (s2l "not a toml file") (.ok none) (Or.inl rfl)
    (s2l "/tmp/Lossless.dll") 2 ⟨s2l "0.8"⟩ true false (s2l "fifo") 0 false false).1

theorem map_congr_mem {α β : Type} (f g : α → β) :
    ∀ l : List α, (∀ a ∈ l, f a = g a) → l.map f = l.map g := by
  intro l
  induction l with
  | nil => intro _; rfl
  | cons a t ih =>
    intro h
    rw [List.map_cons, List.map_cons, h a (List.mem_cons_self a t),
      ih (fun b hb => h b (List.mem_cons_of_mem a hb))]

/-- Claim C6 (amended): updating a fresh profile C over a file holding
game profiles {A, B} succeeds, keeps every existing entry unchanged and
appends C, but the parsed profile map of the written file also holds the
reserved default profile, synthesized from the global configuration when
the original file lacked it: the keys are the default-extended originals
plus C, not exactly {A, B, C}. -/
theorem claim_C6_profiles (G cfg : ConfigurationData) (ps : List (Str × ConfigurationData))
    (C : Str)
    (hGdll : '\n' ∉ G.dll) (hGepm : '\n' ∉ G.experimental_present_mode)
    (hGfs : floatLit G.flow_scale.lit = true)
    (hps : ∀ p ∈ ps, endsNonWS p.1 = true ∧ '\n' ∉ p.1 ∧
      '\n' ∉ p.2.experimental_present_mode ∧ floatLit p.2.flow_scale.lit = true)
    (hdist : ps.Pairwise (fun a b => a.1 ≠ b.1))
    (hC : endsNonWS C = true) (hCnl : '\n' ∉ C)
    (hCfresh : ∀ p ∈ ps, p.1 ≠ C) (hCdef : C ≠ defaultProfileName)
    (hcdll : '\n' ∉ cfg.dll) (hcepm : '\n' ∉ cfg.experimental_present_mode)
    (hcfs : floatLit cfg.flow_scale.lit = true) :
    (update_game_profile (some (generate_per_game_toml_content G ps)) C cfg).1.success = true ∧
    ∃ out, (update_game_profile (some (generate_per_game_toml_content G ps)) C cfg).2
        = some out ∧
      parse_per_game_toml_content out =
        ({ get_defaults with dll := cfg.dll, per_game_profiles := cfg.per_game_profiles },
         (extProfiles G ps).map (fun p => (p.1, to5 p.2)) ++ [(C, to5 cfg)]) ∧
      ((extProfiles G ps).map (fun p => (p.1, to5 p.2)) ++ [(C, to5 cfg)]).map Prod.fst
        = (extProfiles G ps).map Prod.fst ++ [C] := by
  have hpsEconds : ∀ p ∈ extProfiles G ps, endsNonWS p.1 = true ∧ '\n' ∉ p.1 ∧
      '\n' ∉ p.2.experimental_present_mode ∧ floatLit p.2.flow_scale.lit = true := by
    intro p hp
    rw [extProfiles, List.mem_append] at hp
    rcases hp with hp | hp
    · by_cases h : (ps.lookup defaultProfileName).isSome
      · rw [if_pos h] at hp
        exact absurd hp (List.not_mem_nil p)
      · rw [if_neg h] at hp
        rcases List.mem_singleton.mp hp with rfl
        exact ⟨show endsNonWS defaultProfileName = true from by decide,
               show '\n' ∉ defaultProfileName from by decide, hGepm, hGfs⟩
    · exact hps p hp
  have hpsEdist : (extProfiles G ps).Pairwise (fun a b => a.1 ≠ b.1) := by
    rw [extProfiles]
    by_cases h : (ps.lookup defaultProfileName).isSome
    · rw [if_pos h, List.nil_append]
      exact hdist
    · rw [if_neg h,
        show ([(defaultProfileName, G)] ++ ps) = (defaultProfileName, G) :: ps from rfl,
        List.pairwise_cons]
      have hn : ps.lookup defaultProfileName = none := by
        cases hm : ps.lookup defaultProfileName with
        | none => rfl
        | some v => rw [hm] at h; exact absurd rfl h
      exact ⟨fun p hp he => (lookup_eq_none_iff defaultProfileName ps).mp hn p hp he.symm,
             hdist⟩
  have hflush : flushProfiles [] (extProfiles G ps)
      = (extProfiles G ps).map (fun p => (p.1, to5 p.2)) := by
    rw [flushProfiles_fresh (extProfiles G ps) []
      (fun p hp => endsNonWS_ne_nil (hpsEconds p hp).1)
      (fun p hp => rfl) hpsEdist, List.nil_append]
  have hOld2 : parse_per_game_toml_content (generate_per_game_toml_content G ps)
      = ({ get_defaults with dll := G.dll, per_game_profiles := G.per_game_profiles },
         (extProfiles G ps).map (fun p => (p.1, to5 p.2))) := by
    rw [parse_gen_per_game G ps hGdll hGepm hGfs hps, hflush]
  have hCnoneE : (extProfiles G ps).lookup C = none := by
    rw [lookup_eq_none_iff]
    intro p hp
    rw [extProfiles, List.mem_append] at hp
    rcases hp with hp | hp
    · by_cases h : (ps.lookup defaultProfileName).isSome
      · rw [if_pos h] at hp
        exact absurd hp (List.not_mem_nil p)
      · rw [if_neg h] at hp
        rcases List.mem_singleton.mp hp with rfl
        exact fun he => hCdef he.symm
    · exact hCfresh p hp
  have hCnone : ((extProfiles G ps).map (fun p => (p.1, to5 p.2))).lookup C = none := by
    rw [lookup_map_pair, hCnoneE]
    rfl
  have hres := update_game_profile_eq (generate_per_game_toml_content G ps) C cfg _ _ hOld2
  rw [dictInsert_of_none C _ _ hCnone] at hres
  have hLsome : (((extProfiles G ps).map (fun p => (p.1, to5 p.2)) ++
      [(C, (⟨[], cfg.multiplier, cfg.flow_scale, cfg.performance_mode, cfg.hdr_mode,
        cfg.experimental_present_mode, cfg.dxvk_frame_rate, cfg.enable_wow64,
        cfg.disable_steamdeck_mode, false⟩ : ConfigurationData))]).lookup
        defaultProfileName).isSome = true := by
    have h0 := extProfiles_lookup_default G ps
    cases hm : (extProfiles G ps).lookup defaultProfileName with
    | none => rw [hm] at h0; exact absurd h0 (by decide)
    | some v =>
      have hmm : ((extProfiles G ps).map (fun p => (p.1, to5 p.2))).lookup defaultProfileName
          = some (to5 v) := by
        rw [lookup_map_pair, hm]
        rfl
      rw [lookup_append_left defaultProfileName _ hmm]
      rfl
  have hLdist : ((extProfiles G ps).map (fun p => (p.1, to5 p.2)) ++
      [(C, (⟨[], cfg.multiplier, cfg.flow_scale, cfg.performance_mode, cfg.hdr_mode,
        cfg.experimental_present_mode, cfg.dxvk_frame_rate, cfg.enable_wow64,
        cfg.disable_steamdeck_mode, false⟩ : ConfigurationData))]).Pairwise
        (fun a b => a.1 ≠ b.1) := by
    rw [List.pairwise_append]
    refine ⟨?_, List.pairwise_singleton _ _, ?_⟩
    · rw [List.pairwise_map]
      exact hpsEdist
    · intro x hx y hy
      rcases List.mem_singleton.mp hy with rfl
      rcases List.mem_map.mp hx with ⟨q, hq, rfl⟩
      exact fun he => (lookup_eq_none_iff C _).mp hCnoneE q hq he
  have hLconds : ∀ p ∈ (extProfiles G ps).map (fun p => (p.1, to5 p.2)) ++
      [(C, (⟨[], cfg.multiplier, cfg.flow_scale, cfg.performance_mode, cfg.hdr_mode,
        cfg.experimental_present_mode, cfg.dxvk_frame_rate, cfg.enable_wow64,
        cfg.disable_steamdeck_mode, false⟩ : ConfigurationData))],
      endsNonWS p.1 = true ∧ '\n' ∉ p.1 ∧
      '\n' ∉ p.2.experimental_present_mode ∧ floatLit p.2.flow_scale.lit = true := by
    intro p hp
    rw [List.mem_append] at hp
    rcases hp with hp | hp
    · rcases List.mem_map.mp hp with ⟨q, hq, rfl⟩
      exact ⟨(hpsEconds q hq).1, (hpsEconds q hq).2.1,
             to5_epm_no_nl (hpsEconds q hq).2.2.1, (hpsEconds q hq).2.2.2⟩
    · rcases List.mem_singleton.mp hp with rfl
      exact ⟨hC, hCnl, hcepm, hcfs⟩
  have hnew := parse_gen_per_game
    { { get_defaults with dll := G.dll, per_game_profiles := G.per_game_profiles } with
        dll := cfg.dll
        per_game_profiles := cfg.per_game_profiles }
    ((extProfiles G ps).map (fun p => (p.1, to5 p.2)) ++
      [(C, ⟨[], cfg.multiplier, cfg.flow_scale, cfg.performance_mode, cfg.hdr_mode,
        cfg.experimental_present_mode, cfg.dxvk_frame_rate, cfg.enable_wow64,
        cfg.disable_steamdeck_mode, false⟩)])
    hcdll (show '\n' ∉ s2l "fifo" from by decide)
    (show floatLit (s2l "0.8") = true from by decide) hLconds
  have hext2 : extProfiles
      { { get_defaults with dll := G.dll, per_game_profiles := G.per_game_profiles } with
          dll := cfg.dll
          per_game_profiles := cfg.per_game_profiles }
      ((extProfiles G ps).map (fun p => (p.1, to5 p.2)) ++
        [(C, ⟨[], cfg.multiplier, cfg.flow_scale, cfg.performance_mode, cfg.hdr_mode,
          cfg.experimental_present_mode, cfg.dxvk_frame_rate, cfg.enable_wow64,
          cfg.disable_steamdeck_mode, false⟩)]) =
      ((extProfiles G ps).map (fun p => (p.1, to5 p.2)) ++
        [(C, ⟨[], cfg.multiplier, cfg.flow_scale, cfg.performance_mode, cfg.hdr_mode,
          cfg.experimental_present_mode, cfg.dxvk_frame_rate, cfg.enable_wow64,
          cfg.disable_steamdeck_mode, false⟩)]) := by
    rw [extProfiles, if_pos hLsome, List.nil_append]
  have hflush2 : flushProfiles []
      ((extProfiles G ps).map (fun p => (p.1, to5 p.2)) ++
        [(C, ⟨[], cfg.multiplier, cfg.flow_scale, cfg.performance_mode, cfg.hdr_mode,
          cfg.experimental_present_mode, cfg.dxvk_frame_rate, cfg.enable_wow64,
          cfg.disable_steamdeck_mode, false⟩)]) =
      (extProfiles G ps).map (fun p => (p.1, to5 p.2)) ++ [(C, to5 cfg)] := by
    rw [flushProfiles_fresh _ []
      (fun p hp => endsNonWS_ne_nil (hLconds p hp).1)
      (fun p hp => rfl) hLdist, List.nil_append]
    rw [List.map_append, List.map_map]
    congr 1
    apply map_congr_mem
    intro q hq
    rw [show ((fun p => ((p : Str × ConfigurationData).1, to5 p.2)) ∘
        (fun p => (p.1, to5 p.2))) q = (q.1, to5 (to5 q.2)) from rfl, to5_to5]
  constructor
  · rw [hres]
  refine ⟨_, by rw [hres], ?_, ?_⟩
  · rw [hnew, hext2, hflush2]
  · rw [List.map_append]
    congr 1
    rw [List.map_map]
    apply map_congr_mem
    intro q hq
    rfl

/-- A concrete global configuration for exercising the per-game update. -/
def c6G : ConfigurationData :=
  ⟨s2l "/tmp/Lossless.dll", 1, ⟨s2l "0.8"⟩, true, false, s2l "fifo", 0, false, false, true⟩

/-- A concrete game profile A. -/
def c6A : ConfigurationData :=
  ⟨[], 2, ⟨s2l "0.5"⟩, false, true, s2l "mailbox", 0, false, false, false⟩

/-- A concrete game profile B. -/
def c6B : ConfigurationData :=
  ⟨[], 3, ⟨s2l "1.0"⟩, true, true, s2l "immediate", 0, false, false, false⟩

/-- The concrete new settings written for profile C. -/
def c6New : ConfigurationData :=
  ⟨s2l "/tmp/Lossless.dll", 4, ⟨s2l "0.9"⟩, false, false, s2l "fifo", 0, false, false, true⟩

/-- The existing profile map {A, B} of the concrete per-game file. -/
def c6Old : List (Str × ConfigurationData) := [(s2l "gameA", c6A), (s2l "gameB", c6B)]

/-- Claim C6 counterexample: updating profile gameC over a file holding
exactly {gameA, gameB} yields a file whose parsed profile map holds four
entries: the synthesized reserved default profile as well, so the map
does not contain exactly {gameA, gameB, gameC}. -/
theorem claim_C6_counterexample :
    ((parse_per_game_toml_content
        ((update_game_profile (some (generate_per_game_toml_content c6G c6Old))
          (s2l "gameC") c6New).2.getD [])).2.map Prod.fst
      = [s2l "decky-lsfg-vk", s2l "gameA", s2l "gameB", s2l "gameC"]) ∧
    s2l "decky-lsfg-vk" ∉ [s2l "gameA", s2l "gameB", s2l "gameC"] := by
  decide

/-- Witness for claim C6 at the concrete {gameA, gameB} + gameC input. -/
theorem claim_C6_witness :
    (update_game_profile (some (generate_per_game_toml_content c6G c6Old)) (s2l "gameC")
        c6New).1.success = true ∧
    ∃ out, (update_game_profile (some (generate_per_game_toml_content c6G c6Old)) (s2l "gameC")
        c6New).2 = some out ∧
      parse_per_game_toml_content out =
        ({ get_defaults with dll := c6New.dll, per_game_profiles := c6New.per_game_profiles },
         (extProfiles c6G c6Old).map (fun p => (p.1, to5 p.2)) ++ [(s2l "gameC", to5 c6New)]) ∧
      ((extProfiles c6G c6Old).map (fun p => (p.1, to5 p.2)) ++
          [(s2l "gameC", to5 c6New)]).map Prod.fst
        = (extProfiles c6G c6Old).map Prod.fst ++ [s2l "gameC"] :=
  claim_C6_profiles c6G c6New c6Old (s2l "gameC")
    (by decide) (by decide) (by decide) (by decide) (by decide) (by decide)
    (by decide) (by decide) (by decide) (by decide) (by decide) (by decide)

/-! ## Active profile detector -/

theorem find?_append_own {α : Type} (p : α → Bool) :
    ∀ (a b : List α),
      (a ++ b).find? p =
        match a.find? p with
        | some x => some x
        | none => b.find? p := by
  intro a b
  induction a with
  | nil => rfl
  | cons x t ih =>
    rw [List.cons_append]
    cases hx : p x with
    | true => simp only [List.find?, hx]
    | false =>
      simp only [List.find?, hx]
      exact ih

/-- The environ scan is the first value of the LSFG_PROCESS entries that
is nonempty and not the default identifier. -/
theorem scanEnviron_eq :
    ∀ vs : List Str,
      scanEnviron vs = (vs.filterMap lsfgValue).find?
        (fun v => decide (v ≠ []) && decide (v ≠ defaultProfileName)) := by
  intro vs
  induction vs with
  | nil => rfl
  | cons v rest ih =>
    rw [scanEnviron]
    cases hlv : lsfgValue v with
    | none =>
      simp only [List.filterMap_cons, hlv]
      exact ih
    | some name =>
      simp only [List.filterMap_cons, hlv]
      cases h : (decide (name ≠ []) && decide (name ≠ defaultProfileName)) with
      | true =>
        rw [if_pos rfl]
        simp only [List.find?, h]
      | false =>
        rw [if_neg (fun hcon => Bool.noConfusion hcon)]
        simp only [List.find?, h]
        exact ih

/-- The process scan is the first match over the concatenated LSFG_PROCESS
values of the candidates with readable environs. -/
theorem scanProcs_eq :
    ∀ l : List ProcEntry,
      scanProcs l =
        (l.flatMap fun p =>
          match p.environ with
          | none => []
          | some raw => (splitOnChar '\u0000' raw).filterMap lsfgValue).find?
          (fun v => decide (v ≠ []) && decide (v ≠ defaultProfileName)) := by
  intro l
  induction l with
  | nil => rfl
  | cons p rest ih =>
    rw [scanProcs, List.flatMap_cons]
    cases he : p.environ with
    | none =>
      simp only [he, List.nil_append]
      exact ih
    | some raw =>
      simp only [he]
      rw [scanEnviron_eq, find?_append_own]
      cases hf : ((splitOnChar '\u0000' raw).filterMap lsfgValue).find?
          (fun v => decide (v ≠ []) && decide (v ≠ defaultProfileName)) with
      | some n => rfl
      | none => exact ih

/-- Claim C8: the detector never yields the empty name or the reserved
default identifier — default-valued entries are skipped — and it equals
the specification-level first-match over user-owned Vulkan candidates
with readable environs, unreadable processes skipped; exhaustion yields
none (the find? of an exhausted candidate stream). -/
theorem claim_C8_detector (user : Str) (procs : List ProcEntry) :
    (∀ n, get_current_active_profile user procs = some n →
      n ≠ [] ∧ n ≠ defaultProfileName) ∧
    get_current_active_profile user procs = activeProfileFirstMatch user procs := by
  constructor
  · intro n h
    rw [get_current_active_profile, scanProcs_eq] at h
    have hp := List.find?_some h
    rw [Bool.and_eq_true, decide_eq_true_eq, decide_eq_true_eq] at hp
    exact hp
  · rw [get_current_active_profile, activeProfileFirstMatch, scanProcs_eq]

/-- The concrete process table of the C8 witness: a default-tagged Vulkan
process, an unreadable one, then one tagged mygame. -/
def c8Procs : List ProcEntry :=
  [⟨some (s2l "1000"), some (s2l "/usr/lib/libvulkan.so.1"), some (s2l "gameA"),
    some (s2l "PATH=/usr\u0000LSFG_PROCESS=decky-lsfg-vk\u0000HOME=/home")⟩,
   ⟨some (s2l "1000"), some (s2l "Vulkan icd maps"), some (s2l "gameB"), none⟩,
   ⟨some (s2l "1000"), some (s2l "uses vulkan"), some (s2l "gameC"),
    some (s2l "LSFG_PROCESS=mygame\u0000X=1")⟩]

/-- Witness for claim C8: the concrete scan skips the default-tagged and
unreadable processes and returns mygame, which is nonempty and not the
reserved identifier. -/
theorem claim_C8_witness :
    (s2l "mygame" ≠ [] ∧ s2l "mygame" ≠ defaultProfileName) ∧
    get_current_active_profile (s2l "1000") c8Procs
      = activeProfileFirstMatch (s2l "1000") c8Procs :=
  ⟨(claim_C8_detector (s2l "1000") c8Procs).1 (s2l "mygame") (by decide),
   (claim_C8_detector (s2l "1000") c8Procs).2⟩

end LsfgVk
